import Mathlib

/-!
Verification of the WebMCP analysis-and-reconciliation pipeline.

This file gives a shallow embedding, in Lean 4, of the core data model and
operations of the pipeline: the risk classifier, the AST-to-runtime matcher
and its selector synthesis, the candidate grouper and proposal builder
(including the stable tool id), and the incremental handler cache.  All
definitions are translated directly from the TypeScript sources; JavaScript
string operations (`toLowerCase`, `includes`, `join`) are modelled by
explicit character-list functions, JavaScript numbers that only ever carry
small decimal confidence scores are modelled by rationals, and JavaScript
object maps are modelled by insertion-ordered association lists.
-/

namespace WebMCP

/-! ## JavaScript string primitives -/

/-- `listStartsWith pat l` holds when `pat` is an initial segment of `l`. -/
def listStartsWith : List Char → List Char → Bool
  | [], _ => true
  | _ :: _, [] => false
  | a :: as, b :: bs => a == b && listStartsWith as bs

/-- `listHasSub pat l`: does `l` contain `pat` as a contiguous sublist? -/
def listHasSub (pat : List Char) : List Char → Bool
  | [] => pat.isEmpty
  | c :: cs => listStartsWith pat (c :: cs) || listHasSub pat cs

/-- Model of JavaScript `s.includes(pat)` (substring containment). -/
def jsIncludes (s pat : String) : Bool := listHasSub pat.data s.data

/-- Model of JavaScript `s.toLowerCase()` (ASCII case folding). -/
def jsToLower (s : String) : String := ⟨s.data.map Char.toLower⟩

/-- Model of JavaScript `s.toUpperCase()` (ASCII case folding). -/
def jsToUpper (s : String) : String := ⟨s.data.map Char.toUpper⟩

/-- Model of JavaScript `array.join(sep)`. -/
def jsJoin (sep : String) : List String → String
  | [] => ""
  | [s] => s
  | s :: rest => s ++ sep ++ jsJoin sep rest

/-- JavaScript truthiness of an optional string (`undefined` and `""` are falsy). -/
def optTruthy : Option String → Bool
  | some s => !s.isEmpty
  | none => false

/-- Lookup in a JavaScript object modelled as an insertion-ordered list
(`obj[key]`, first binding wins). -/
def recLookup (m : List (String × String)) (k : String) : Option String :=
  (m.find? (fun kv => kv.1 == k)).map (·.2)

/-! ## Data model (`types.ts`) -/

/-- Binding of an element to a reactive state variable.  The TypeScript field
is called `variable`, which is a reserved word in Lean and is therefore
spelled `variableName` here. -/
structure StateBinding where
  variableName : String
  setter : Option String := none
  accessPath : Option String := none
deriving DecidableEq, Repr

/-- Accessibility hints recorded on a `UIElement`. -/
structure AccessibilityHints where
  ariaLabel : Option String := none
  ariaDescribedBy : Option String := none
  role : Option String := none
deriving DecidableEq, Repr

/-- The closed set of selector strategy kinds. -/
inductive StrategyKind
  | testid
  | mcp
  | label
  | role
  | css
deriving DecidableEq, Repr

/-- One scored way of locating an element at invocation time. -/
structure SelectorStrategy where
  strategy : StrategyKind
  value : String
  score : ℚ
deriving DecidableEq, Repr

/-- One interactive element discovered in source. -/
structure UIElement where
  tag : String
  id : Option String := none
  name : Option String := none
  label : Option String := none
  inputType : Option String := none
  attributes : List (String × String) := []
  stateBinding : Option StateBinding := none
  validation : Option (List String) := none
  accessibilityHints : Option AccessibilityHints := none
  parentFormId : Option String := none
  selectorFallback : Option (List SelectorStrategy) := none
deriving DecidableEq, Repr

/-- One heuristically extracted outbound API call. -/
structure ApiCall where
  method : String
  url : String
deriving DecidableEq, Repr

/-- A function bound to a UI event. -/
structure EventHandler where
  name : String
  event : String
  elementTag : Option String := none
  elementId : Option String := none
  body : Option String := none
  isAsync : Bool := false
  apiCalls : Option (List ApiCall) := none
deriving DecidableEq, Repr

/-- Risk tier assigned to a proposed tool. -/
inductive ToolRisk
  | safe
  | caution
  | destructive
  | excluded
deriving DecidableEq, Repr

/-- Result of the risk classifier. -/
structure RiskClassification where
  risk : ToolRisk
  reason : String
deriving DecidableEq, Repr

/-! ## Risk keyword tables (`types.ts`) -/

/-- Destructive-intent keyword table. -/
def DESTRUCTIVE_KEYWORDS : List String :=
  ["delete", "remove", "destroy", "drop", "purge", "erase",
   "revoke", "terminate", "cancel", "unsubscribe", "deactivate",
   "reset", "wipe", "clear-all"]

/-- Mutation-intent keyword table. -/
def CAUTION_KEYWORDS : List String :=
  ["update", "edit", "modify", "change", "save", "submit",
   "post", "put", "patch", "send", "publish", "create",
   "toggle", "enable", "disable", "set"]

/-- Exclusion pattern table (navigation intents and upload markers). -/
def EXCLUDED_PATTERNS : List String :=
  ["navigate", "redirect", "route", "link", "href", "goto",
   "file-upload", "upload-file"]

/-! ## Risk classifier (`classifier/risk-classifier.ts`) -/

/-- `if (x) signals.push(x.toLowerCase())`: push a lowercased signal when the
optional string is truthy. -/
def pushSignal : Option String → List String
  | some s => if s.isEmpty then [] else [jsToLower s]
  | none => []

/-- The ordered list of lowercased text signals collected by `classifyRisk`. -/
def riskSignals (triggerElement : Option UIElement) (handler : Option EventHandler) :
    List String :=
  pushSignal (triggerElement.bind (·.label)) ++
  pushSignal (triggerElement.bind (·.name)) ++
  pushSignal (triggerElement.bind (·.id)) ++
  pushSignal (handler.map (·.name)) ++
  pushSignal (handler.bind (·.body))

/-- The uppercased HTTP methods of the handler's recorded API calls. -/
def riskHttpMethods (handler : Option EventHandler) : List String :=
  ((handler.bind (·.apiCalls)).getD []).map (fun c => jsToUpper c.method)

/-- The concatenation (space separated) of every available text signal. -/
def riskAllText (triggerElement : Option UIElement) (handler : Option EventHandler) :
    String :=
  jsJoin " " (riskSignals triggerElement handler)

/-- `classifyRisk` from `classifier/risk-classifier.ts`: the deterministic
first-match-wins rule cascade excluded → destructive → caution → safe. -/
def classifyRisk (triggerElement : Option UIElement) (handler : Option EventHandler) :
    RiskClassification :=
  let httpMethods := riskHttpMethods handler
  let allText := riskAllText triggerElement handler
  match EXCLUDED_PATTERNS.find? (fun p => jsIncludes allText p) with
  | some p => ⟨.excluded, "Matches excluded pattern: \"" ++ p ++ "\""⟩
  | none =>
    match DESTRUCTIVE_KEYWORDS.find? (fun k => jsIncludes allText k) with
    | some k => ⟨.destructive, "Contains destructive keyword: \"" ++ k ++ "\""⟩
    | none =>
      if httpMethods.contains "DELETE" then
        ⟨.destructive, "Handler makes DELETE API call"⟩
      else
        match CAUTION_KEYWORDS.find? (fun k => jsIncludes allText k) with
        | some k => ⟨.caution, "Contains mutation keyword: \"" ++ k ++ "\""⟩
        | none =>
          if httpMethods.any (fun m => m == "POST" || m == "PUT" || m == "PATCH") then
            ⟨.caution, "Handler makes " ++ jsJoin ", " httpMethods ++ " API call"⟩
          else
            ⟨.safe, "No mutation or destructive signals detected"⟩

/-! ## Substring and join lemmas -/

theorem listHasSub_nil (l : List Char) : listHasSub [] l = true := by
  induction l with
  | nil => rfl
  | cons c cs ih => simp [listHasSub, listStartsWith]

theorem listStartsWith_append (pat l l' : List Char) (h : listStartsWith pat l = true) :
    listStartsWith pat (l ++ l') = true := by
  induction pat generalizing l with
  | nil => rfl
  | cons a as ih =>
    cases l with
    | nil => simp [listStartsWith] at h
    | cons b bs =>
      simp only [listStartsWith, Bool.and_eq_true] at h ⊢
      exact ⟨h.1, ih bs h.2⟩

theorem listHasSub_append_left (pat l l' : List Char) (h : listHasSub pat l = true) :
    listHasSub pat (l ++ l') = true := by
  induction l with
  | nil =>
    simp only [listHasSub, List.isEmpty_iff] at h
    subst h
    exact listHasSub_nil l'
  | cons c cs ih =>
    simp only [listHasSub, Bool.or_eq_true] at h
    rcases h with h | h
    · simp only [List.cons_append, listHasSub, Bool.or_eq_true]
      exact Or.inl (listStartsWith_append pat (c :: cs) l' h)
    · simp only [List.cons_append, listHasSub, Bool.or_eq_true]
      exact Or.inr (ih h)

theorem listHasSub_append_right (pat l l' : List Char) (h : listHasSub pat l' = true) :
    listHasSub pat (l ++ l') = true := by
  induction l with
  | nil => simpa using h
  | cons c cs ih =>
    simp only [List.cons_append, listHasSub, Bool.or_eq_true]
    exact Or.inr ih

theorem jsIncludes_append_left (a b pat : String) (h : jsIncludes a pat = true) :
    jsIncludes (a ++ b) pat = true := by
  simp only [jsIncludes, String.data_append]
  exact listHasSub_append_left _ _ _ h

theorem jsIncludes_append_right (a b pat : String) (h : jsIncludes b pat = true) :
    jsIncludes (a ++ b) pat = true := by
  simp only [jsIncludes, String.data_append]
  exact listHasSub_append_right _ _ _ h

theorem jsIncludes_mem_jsJoin (sep : String) (sigs : List String) (s pat : String)
    (hs : s ∈ sigs) (hp : jsIncludes s pat = true) :
    jsIncludes (jsJoin sep sigs) pat = true := by
  induction sigs with
  | nil => cases hs
  | cons x rest ih =>
    cases hs with
    | head =>
      cases rest with
      | nil => exact hp
      | cons r t => exact jsIncludes_append_left _ _ _ (jsIncludes_append_left _ _ _ hp)
    | tail _ hmem =>
      cases rest with
      | nil => cases hmem
      | cons r t =>
        have := ih hmem
        exact jsIncludes_append_right (x ++ sep) (jsJoin sep (r :: t)) pat this

theorem jsIncludes_empty (pat : String) (h : jsIncludes "" pat = true) : pat = "" := by
  simp only [jsIncludes] at h
  cases hp : pat.data with
  | nil => exact String.ext (by simp [hp])
  | cons c cs =>
    rw [hp] at h
    simp [listHasSub, List.isEmpty_iff] at h

/-! ## Claim theorems: risk classifier -/

/-- C1.  `classifyRisk` evaluates its rule cascade in the fixed priority
excluded → destructive → caution → safe with first match winning: an excluded
pattern in the concatenated lowercased text signals forces `excluded`
regardless of destructive or caution matches; otherwise a destructive keyword
or a recorded DELETE call forces `destructive` even when caution keywords
match; otherwise a caution keyword or a POST/PUT/PATCH call yields `caution`;
otherwise the result is `safe`. -/
theorem classifyRisk_cascade (t : Option UIElement) (h : Option EventHandler) :
    ((∃ p ∈ EXCLUDED_PATTERNS, jsIncludes (riskAllText t h) p = true) →
      (classifyRisk t h).risk = ToolRisk.excluded)
    ∧ ((∀ p ∈ EXCLUDED_PATTERNS, jsIncludes (riskAllText t h) p = false) →
        ((∃ k ∈ DESTRUCTIVE_KEYWORDS, jsIncludes (riskAllText t h) k = true) ∨
          (riskHttpMethods h).contains "DELETE" = true) →
        (classifyRisk t h).risk = ToolRisk.destructive)
    ∧ ((∀ p ∈ EXCLUDED_PATTERNS, jsIncludes (riskAllText t h) p = false) →
        (∀ k ∈ DESTRUCTIVE_KEYWORDS, jsIncludes (riskAllText t h) k = false) →
        (riskHttpMethods h).contains "DELETE" = false →
        ((∃ k ∈ CAUTION_KEYWORDS, jsIncludes (riskAllText t h) k = true) ∨
          (∃ m ∈ riskHttpMethods h, m = "POST" ∨ m = "PUT" ∨ m = "PATCH")) →
        (classifyRisk t h).risk = ToolRisk.caution)
    ∧ ((∀ p ∈ EXCLUDED_PATTERNS, jsIncludes (riskAllText t h) p = false) →
        (∀ k ∈ DESTRUCTIVE_KEYWORDS, jsIncludes (riskAllText t h) k = false) →
        (riskHttpMethods h).contains "DELETE" = false →
        (∀ k ∈ CAUTION_KEYWORDS, jsIncludes (riskAllText t h) k = false) →
        (∀ m ∈ riskHttpMethods h, m ≠ "POST" ∧ m ≠ "PUT" ∧ m ≠ "PATCH") →
        (classifyRisk t h).risk = ToolRisk.safe) := by
  refine ⟨?_, ?_, ?_, ?_⟩
  · intro hex
    have hs : (EXCLUDED_PATTERNS.find? (fun p => jsIncludes (riskAllText t h) p)).isSome := by
      rw [List.find?_isSome]; exact hex
    obtain ⟨q, hq⟩ := Option.isSome_iff_exists.mp hs
    simp only [classifyRisk, hq]
  · intro hnoex hd
    have hqe : EXCLUDED_PATTERNS.find? (fun p => jsIncludes (riskAllText t h) p) = none := by
      rw [List.find?_eq_none]; intro x hx; simp [hnoex x hx]
    cases hfd : DESTRUCTIVE_KEYWORDS.find? (fun k => jsIncludes (riskAllText t h) k) with
    | some k => simp only [classifyRisk, hqe, hfd]
    | none =>
      rcases hd with hkw | hdel
      · exfalso
        obtain ⟨k, hk, hki⟩ := hkw
        have := List.find?_eq_none.mp hfd k hk
        simp [hki] at this
      · simp only [classifyRisk, hqe, hfd, hdel, if_true]
  · intro hnoex hnod hnodel hc
    have hqe : EXCLUDED_PATTERNS.find? (fun p => jsIncludes (riskAllText t h) p) = none := by
      rw [List.find?_eq_none]; intro x hx; simp [hnoex x hx]
    have hqd : DESTRUCTIVE_KEYWORDS.find? (fun k => jsIncludes (riskAllText t h) k) = none := by
      rw [List.find?_eq_none]; intro x hx; simp [hnod x hx]
    cases hfc : CAUTION_KEYWORDS.find? (fun k => jsIncludes (riskAllText t h) k) with
    | some k => simp only [classifyRisk, hqe, hqd, hnodel, hfc, Bool.false_eq_true, if_false]
    | none =>
      rcases hc with hkw | hm
      · exfalso
        obtain ⟨k, hk, hki⟩ := hkw
        have := List.find?_eq_none.mp hfc k hk
        simp [hki] at this
      · have hany : (riskHttpMethods h).any
            (fun m => m == "POST" || m == "PUT" || m == "PATCH") = true := by
          rw [List.any_eq_true]
          obtain ⟨m, hm1, hm2⟩ := hm
          refine ⟨m, hm1, ?_⟩
          rcases hm2 with rfl | rfl | rfl <;> decide
        simp only [classifyRisk, hqe, hqd, hnodel, hfc, hany, Bool.false_eq_true, if_false,
          if_true]
  · intro hnoex hnod hnodel hnoc hnom
    have hqe : EXCLUDED_PATTERNS.find? (fun p => jsIncludes (riskAllText t h) p) = none := by
      rw [List.find?_eq_none]; intro x hx; simp [hnoex x hx]
    have hqd : DESTRUCTIVE_KEYWORDS.find? (fun k => jsIncludes (riskAllText t h) k) = none := by
      rw [List.find?_eq_none]; intro x hx; simp [hnod x hx]
    have hqc : CAUTION_KEYWORDS.find? (fun k => jsIncludes (riskAllText t h) k) = none := by
      rw [List.find?_eq_none]; intro x hx; simp [hnoc x hx]
    have hany : (riskHttpMethods h).any
        (fun m => m == "POST" || m == "PUT" || m == "PATCH") = false := by
      rw [Bool.eq_false_iff]
      intro hcon
      obtain ⟨m, hm1, hm2⟩ := List.any_eq_true.mp hcon
      obtain ⟨h1, h2, h3⟩ := hnom m hm1
      simp only [Bool.or_eq_true, beq_iff_eq] at hm2
      rcases hm2 with (rfl | rfl) | rfl
      · exact h1 rfl
      · exact h2 rfl
      · exact h3 rfl
    simp only [classifyRisk, hqe, hqd, hnodel, hqc, hany, Bool.false_eq_true, if_false]

/-- Witness for C1: the exclusion rule beats a destructive match, and the
destructive rule beats a caution match, at concrete trigger labels. -/
theorem classifyRisk_cascade_witness :
    (classifyRisk (some { tag := "button", label := some "delete and navigate" }) none).risk =
        ToolRisk.excluded
    ∧ (classifyRisk (some { tag := "button", label := some "Delete and Save" }) none).risk =
        ToolRisk.destructive := by
  constructor
  · exact (classifyRisk_cascade _ _).1 (by decide)
  · exact (classifyRisk_cascade _ _).2.1 (by decide) (Or.inl (by decide))

/-- C7.  A missing trigger element never downgrades the classification: a
handler whose name or body contains a destructive keyword, with no excluded
pattern anywhere in the combined signals, classifies as destructive even when
the trigger element is entirely absent. -/
theorem classifyRisk_noTrigger_destructive (h : EventHandler)
    (hnoex : ∀ p ∈ EXCLUDED_PATTERNS, jsIncludes (riskAllText none (some h)) p = false)
    (hd : ∃ k ∈ DESTRUCTIVE_KEYWORDS,
      jsIncludes (jsToLower h.name) k = true ∨
      ∃ b, h.body = some b ∧ jsIncludes (jsToLower b) k = true) :
    (classifyRisk none (some h)).risk = ToolRisk.destructive := by
  obtain ⟨k, hk, hcase⟩ := hd
  have hkne : k ≠ "" := by
    have hall : ∀ x ∈ DESTRUCTIVE_KEYWORDS, x ≠ "" := by decide
    exact hall k hk
  have hsig : ∃ s ∈ riskSignals none (some h), jsIncludes s k = true := by
    rcases hcase with hn | ⟨b, hb, hbi⟩
    · have hne : h.name.isEmpty = false := by
        rw [Bool.eq_false_iff]
        intro he
        have : h.name = "" := (String.isEmpty_iff _).mp he
        rw [this] at hn
        exact hkne (jsIncludes_empty k hn)
      refine ⟨jsToLower h.name, ?_, hn⟩
      simp [riskSignals, pushSignal, hne]
    · have hne : b.isEmpty = false := by
        rw [Bool.eq_false_iff]
        intro he
        have : b = "" := (String.isEmpty_iff _).mp he
        rw [this] at hbi
        exact hkne (jsIncludes_empty k hbi)
      refine ⟨jsToLower b, ?_, hbi⟩
      simp [riskSignals, pushSignal, hne, hb]
  obtain ⟨s, hsm, hsi⟩ := hsig
  have hall : jsIncludes (riskAllText none (some h)) k = true :=
    jsIncludes_mem_jsJoin " " _ s k hsm hsi
  exact (classifyRisk_cascade none (some h)).2.1 hnoex (Or.inl ⟨k, hk, hall⟩)

/-- Witness for C7: a reset-style handler with no trigger element classifies
as destructive. -/
theorem classifyRisk_noTrigger_destructive_witness :
    (classifyRisk none (some { name := "handleReset", event := "onClick" })).risk =
      ToolRisk.destructive :=
  classifyRisk_noTrigger_destructive { name := "handleReset", event := "onClick" }
    (by decide) ⟨"reset", by decide, Or.inl (by decide)⟩

/-! ## Runtime probe model and AST↔runtime matcher (`classifier/matcher.ts`) -/

/-- One live DOM node found by the runtime probe.  The optional bounding
geometry of the TypeScript model is omitted because the matcher never reads
it. -/
structure ProbeElement where
  tag : String
  id : Option String := none
  nameAttribute : Option String := none
  inputType : Option String := none
  accessibleName : String
  role : String
  selector : String
  attributes : List (String × String) := []
  isInteractive : Bool := true
deriving DecidableEq, Repr

/-- JavaScript `a || d` on an optional string: the default wins when the
value is absent or empty. -/
def jsOrStr (o : Option String) (d : String) : String :=
  match o with
  | some s => if s.isEmpty then d else s
  | none => d

/-- `mapTagToRole` from `classifier/matcher.ts`: the fixed tag+subtype→role
inference table. -/
def mapTagToRole (tag : String) (inputType : Option String) : String :=
  if tag == "button" then "button"
  else if tag == "select" then "combobox"
  else if tag == "textarea" then "textbox"
  else if tag == "input" then
    if ["submit", "button", "reset"].contains (jsOrStr inputType "") then "button"
    else if ["text", "email", "password", "search", "url"].contains (jsOrStr inputType "text") then
      "textbox"
    else if inputType == some "checkbox" then "checkbox"
    else if inputType == some "radio" then "radio"
    else tag
  else tag

/-- `calculateMatchScore` from `classifier/matcher.ts`: weighted sum of
independent signals, capped at 1. -/
def calculateMatchScore (astEl : UIElement) (probeEl : ProbeElement) : ℚ :=
  let s1 : ℚ := if optTruthy astEl.id && astEl.id == probeEl.id then 1/2 else 0
  let s2 : ℚ := if optTruthy astEl.name && astEl.name == probeEl.nameAttribute then 2/5 else 0
  let s3 : ℚ :=
    if optTruthy (recLookup astEl.attributes "data-testid") &&
        recLookup astEl.attributes "data-testid" == recLookup probeEl.attributes "data-testid"
    then 3/5 else 0
  let s4 : ℚ :=
    if optTruthy (recLookup astEl.attributes "data-mcp") &&
        recLookup astEl.attributes "data-mcp" == recLookup probeEl.attributes "data-mcp"
    then 4/5 else 0
  let astLabel :=
    jsToLower ((astEl.label.or (astEl.accessibilityHints.bind (·.ariaLabel))).getD "")
  let probeLabel := jsToLower probeEl.accessibleName
  let s5 : ℚ :=
    if !astLabel.isEmpty && !probeLabel.isEmpty then
      if astLabel == probeLabel then 2/5
      else if jsIncludes probeLabel astLabel || jsIncludes astLabel probeLabel then 1/5
      else 0
    else 0
  let s6 : ℚ := if mapTagToRole astEl.tag astEl.inputType == probeEl.role then 1/5 else 0
  min (s1 + s2 + s3 + s4 + s5 + s6) 1

/-- Stable insertion (descending by score): the model of one step of
JavaScript's stable `sort((a, b) => b.score - a.score)`. -/
def insertDesc (x : SelectorStrategy) : List SelectorStrategy → List SelectorStrategy
  | [] => [x]
  | y :: t => if y.score ≤ x.score then x :: y :: t else y :: insertDesc x t

/-- Stable descending-by-score sort, the model of JavaScript's stable
`array.sort((a, b) => b.score - a.score)`. -/
def sortByScoreDesc : List SelectorStrategy → List SelectorStrategy
  | [] => []
  | x :: rest => insertDesc x (sortByScoreDesc rest)

/-- `synthesizeStrategies` from `classifier/matcher.ts`. -/
def synthesizeStrategies (probeEl : ProbeElement) (matchScore : ℚ) : List SelectorStrategy :=
  let l1 :=
    if optTruthy (recLookup probeEl.attributes "data-mcp") then
      [⟨.mcp, (recLookup probeEl.attributes "data-mcp").getD "", 1⟩] else []
  let l2 :=
    if optTruthy (recLookup probeEl.attributes "data-testid") then
      [⟨.testid, (recLookup probeEl.attributes "data-testid").getD "", 9/10⟩] else []
  let l3 :=
    if !probeEl.accessibleName.isEmpty then
      [⟨.label, probeEl.accessibleName, 4/5⟩] else []
  let l4 :=
    if !probeEl.role.isEmpty && !probeEl.accessibleName.isEmpty then
      [⟨.role, probeEl.role ++ ":" ++ probeEl.accessibleName, 3/5⟩] else []
  let l5 : List SelectorStrategy := [⟨.css, probeEl.selector, max (1/5) (matchScore * (1/2))⟩]
  sortByScoreDesc (l1 ++ l2 ++ l3 ++ l4 ++ l5)

/-- `fallbackToASTStrategies` from `classifier/matcher.ts`: AST-only-derived
selector list, always ending in a bare-tag CSS strategy. -/
def fallbackToASTStrategies (astEl : UIElement) : List SelectorStrategy :=
  let l1 := if optTruthy astEl.id then [⟨StrategyKind.css, "#" ++ astEl.id.getD "", 1/2⟩] else []
  let l2 :=
    if optTruthy astEl.name then
      [⟨StrategyKind.css, astEl.tag ++ "[name=\"" ++ astEl.name.getD "" ++ "\"]", 2/5⟩] else []
  let l3 :=
    if optTruthy (recLookup astEl.attributes "data-testid") then
      [⟨StrategyKind.testid, (recLookup astEl.attributes "data-testid").getD "", 9/10⟩] else []
  sortByScoreDesc (l1 ++ l2 ++ l3 ++ [⟨StrategyKind.css, astEl.tag, 1/10⟩])

/-- The best-match fold of `matchElementsToProbe` (strict improvement over a
starting score of 0). -/
def bestProbeMatch (astEl : UIElement) (probeElements : List ProbeElement) :
    Option ProbeElement × ℚ :=
  probeElements.foldl
    (fun acc probeEl =>
      let score := calculateMatchScore astEl probeEl
      if acc.2 < score then (some probeEl, score) else acc)
    (none, 0)

/-- The per-element body of `matchElementsToProbe`: attach synthesized
strategies from the best probe match above the 0.3 threshold, else the
AST-derived fallback. -/
def matchOneElement (probeElements : List ProbeElement) (astEl : UIElement) : UIElement :=
  match bestProbeMatch astEl probeElements with
  | (some bm, bestScore) =>
    if (3/10 : ℚ) < bestScore then
      { astEl with selectorFallback := some (synthesizeStrategies bm bestScore) }
    else
      { astEl with selectorFallback := some (fallbackToASTStrategies astEl) }
  | (none, _) => { astEl with selectorFallback := some (fallbackToASTStrategies astEl) }

/-- `matchElementsToProbe` from `classifier/matcher.ts`.  The TypeScript
version mutates each element's `selectorFallback` in place; the model
returns the updated list. -/
def matchElementsToProbe (astElements : List UIElement) (probeElements : List ProbeElement) :
    List UIElement :=
  astElements.map (matchOneElement probeElements)


theorem length_insertDesc (x : SelectorStrategy) (l : List SelectorStrategy) :
    (insertDesc x l).length = l.length + 1 := by
  induction l with
  | nil => rfl
  | cons y t ih =>
    simp only [insertDesc]
    split
    · simp
    · simp [ih]

theorem length_sortByScoreDesc (l : List SelectorStrategy) :
    (sortByScoreDesc l).length = l.length := by
  induction l with
  | nil => rfl
  | cons x t ih => simp [sortByScoreDesc, length_insertDesc, ih]

theorem mem_insertDesc (a x : SelectorStrategy) (l : List SelectorStrategy) :
    a ∈ insertDesc x l ↔ a = x ∨ a ∈ l := by
  induction l with
  | nil => simp [insertDesc]
  | cons y t ih =>
    simp only [insertDesc]
    split
    · simp
    · simp only [List.mem_cons, ih]
      tauto

theorem mem_sortByScoreDesc (a : SelectorStrategy) (l : List SelectorStrategy) :
    a ∈ sortByScoreDesc l ↔ a ∈ l := by
  induction l with
  | nil => simp [sortByScoreDesc]
  | cons x t ih => simp [sortByScoreDesc, mem_insertDesc, ih]

theorem sortByScoreDesc_ne_nil (l : List SelectorStrategy) (h : l ≠ []) :
    sortByScoreDesc l ≠ [] := by
  intro hc
  have := length_sortByScoreDesc l
  rw [hc] at this
  simp at this
  exact h (List.length_eq_zero.mp this.symm)

theorem synthesizeStrategies_ne_nil (probeEl : ProbeElement) (matchScore : ℚ) :
    synthesizeStrategies probeEl matchScore ≠ [] := by
  unfold synthesizeStrategies
  apply sortByScoreDesc_ne_nil
  simp

theorem fallbackToASTStrategies_ne_nil (astEl : UIElement) :
    fallbackToASTStrategies astEl ≠ [] := by
  unfold fallbackToASTStrategies
  apply sortByScoreDesc_ne_nil
  simp

theorem bareTag_mem_fallbackToASTStrategies (astEl : UIElement) :
    (⟨StrategyKind.css, astEl.tag, 1/10⟩ : SelectorStrategy) ∈ fallbackToASTStrategies astEl := by
  unfold fallbackToASTStrategies
  rw [mem_sortByScoreDesc]
  simp

theorem bestFold_le (astEl : UIElement) (q : ℚ) (l : List ProbeElement) :
    ∀ acc : Option ProbeElement × ℚ, (∀ pe ∈ l, calculateMatchScore astEl pe ≤ q) → acc.2 ≤ q →
      (l.foldl
        (fun acc probeEl =>
          let score := calculateMatchScore astEl probeEl
          if acc.2 < score then (some probeEl, score) else acc) acc).2 ≤ q := by
  induction l with
  | nil => intro acc _ hacc; simpa using hacc
  | cons pe rest ih =>
    intro acc hall hacc
    simp only [List.foldl_cons]
    apply ih
    · intro x hx; exact hall x (List.mem_cons_of_mem pe hx)
    · by_cases hlt : acc.2 < calculateMatchScore astEl pe
      · simp only [hlt, if_true]
        exact hall pe (List.mem_cons_self pe rest)
      · simp only [hlt, if_false]
        exact hacc

theorem bestProbeMatch_le (astEl : UIElement) (probeElements : List ProbeElement) (q : ℚ)
    (hall : ∀ pe ∈ probeElements, calculateMatchScore astEl pe ≤ q) (h0 : 0 ≤ q) :
    (bestProbeMatch astEl probeElements).2 ≤ q :=
  bestFold_le astEl q probeElements (none, 0) hall h0
/-- C3.  Selector degradation: after matching, every static element carries a
non-empty selector-fallback list, for every probe-element list including the
empty one; when no probe element scores above the 0.3 threshold the element
receives the AST-derived fallback list, which always contains a bare-tag CSS
strategy. -/
theorem matchElementsToProbe_degradation (astElements : List UIElement)
    (probeElements : List ProbeElement) :
    (∀ el' ∈ matchElementsToProbe astElements probeElements,
      ∃ l, el'.selectorFallback = some l ∧ l ≠ [])
    ∧ (∀ astEl, (∀ pe ∈ probeElements, calculateMatchScore astEl pe ≤ 3/10) →
        matchOneElement probeElements astEl =
          { astEl with selectorFallback := some (fallbackToASTStrategies astEl) })
    ∧ (∀ astEl : UIElement,
        (⟨StrategyKind.css, astEl.tag, 1/10⟩ : SelectorStrategy) ∈
          fallbackToASTStrategies astEl) := by
  refine ⟨?_, ?_, fun astEl => bareTag_mem_fallbackToASTStrategies astEl⟩
  · intro el' hmem
    obtain ⟨el, _, rfl⟩ := List.mem_map.mp hmem
    unfold matchOneElement
    rcases hbp : bestProbeMatch el probeElements with ⟨fst, snd⟩
    cases fst with
    | some bm =>
      by_cases h3 : (3/10 : ℚ) < snd
      · simp only [h3, if_true]
        exact ⟨_, rfl, synthesizeStrategies_ne_nil bm snd⟩
      · simp only [h3, if_false]
        exact ⟨_, rfl, fallbackToASTStrategies_ne_nil el⟩
    | none =>
      exact ⟨_, rfl, fallbackToASTStrategies_ne_nil el⟩
  · intro astEl hall
    have hle : (bestProbeMatch astEl probeElements).2 ≤ 3/10 :=
      bestProbeMatch_le astEl probeElements (3/10) hall (by norm_num)
    unfold matchOneElement
    rcases hbp : bestProbeMatch astEl probeElements with ⟨fst, snd⟩
    rw [hbp] at hle
    cases fst with
    | some bm =>
      have hnot : ¬ ((3/10 : ℚ) < snd) := not_lt.mpr hle
      simp only [hnot, if_false]
    | none => rfl

/-- Witness for C3: a bare input element with zero probe elements receives
the non-empty AST-derived fallback list. -/
theorem matchElementsToProbe_degradation_witness :
    (∃ l, (matchOneElement [] { tag := "input" }).selectorFallback = some l ∧ l ≠ [])
    ∧ matchOneElement [] { tag := "input" } =
        { tag := "input",
          selectorFallback := some (fallbackToASTStrategies { tag := "input" }) } := by
  constructor
  · exact (matchElementsToProbe_degradation [{ tag := "input" }] []).1
      (matchOneElement [] { tag := "input" }) (by simp [matchElementsToProbe])
  · exact (matchElementsToProbe_degradation [] []).2.1 { tag := "input" } (by simp)
/-! ## Component model (`types.ts`) -/

/-- Overall classified type of a component. -/
inductive ComponentType
  | form
  | action
  | display
  | mixed
deriving DecidableEq, Repr

/-- A component-local reactive state declaration.  The declaration-kind union
(`useState`/`useRef`/`useReducer`/`formLibrary`/`other`) is kept as a string
literal as in the TypeScript union type. -/
structure StateVariable where
  name : String
  setter : Option String := none
  initialValue : Option String := none
  type : Option String := none
  kind : String
deriving DecidableEq, Repr

/-- A declared external parameter of a component. -/
structure PropDefinition where
  name : String
  type : Option String := none
  required : Bool
  defaultValue : Option String := none
deriving DecidableEq, Repr

/-- One discovered component (or, for markup-only input, the whole file). -/
structure ComponentInfo where
  name : String
  type : ComponentType
  elements : List UIElement
  eventHandlers : List EventHandler
  stateVariables : List StateVariable := []
  props : List PropDefinition := []
  formLibrary : Option String := none
deriving DecidableEq, Repr

/-- The result of one parse pass. -/
structure ComponentAnalysis where
  fileName : String
  framework : String
  components : List ComponentInfo
deriving DecidableEq, Repr

/-! ## Candidate grouping (`proposal/index.ts`) -/

/-- Kind of a tool candidate. -/
inductive CandidateType
  | form
  | action
deriving DecidableEq, Repr

/-- The string pushed for a candidate type into the id payload. -/
def candidateTypeStr : CandidateType → String
  | .form => "form"
  | .action => "action"

/-- Internal grouping of a trigger plus inputs before the final proposal. -/
structure ToolCandidate where
  type : CandidateType
  componentName : String
  triggerElement : Option UIElement := none
  inputElements : List UIElement := []
  handler : Option EventHandler := none
deriving DecidableEq, Repr

/-- A button explicitly marked submit-type (by `inputType` or the raw `type`
attribute). -/
def isSubmitTypeBtn (el : UIElement) : Bool :=
  el.tag == "button" &&
    (el.inputType == some "submit" || recLookup el.attributes "type" == some "submit")

/-- Text-capable input/textarea/select, excluding password and file inputs. -/
def textCapableInput (el : UIElement) : Bool :=
  (["input", "textarea", "select"].contains el.tag) &&
  !(el.inputType == some "password") &&
  el.inputType != some "file"

/-- Index of the submit button found by the React path: first submit-typed
button, else the first button at all. -/
def submitBtnIdxGlobal (es : List UIElement) : Option ℕ :=
  match es.findIdx? isSubmitTypeBtn with
  | some i => some i
  | none => es.findIdx? (fun el => el.tag == "button")

/-- Index of the submit button found by the HTML path for one form: first
submit-typed button inside the form (any submit-typed button when the form
has no id), else the first button at all. -/
def submitBtnIdxForForm (es : List UIElement) (formId : Option String) : Option ℕ :=
  match es.findIdx?
      (fun el => isSubmitTypeBtn el && (formId.isNone || el.parentFormId == formId)) with
  | some i => some i
  | none => es.findIdx? (fun el => el.tag == "button")

/-- The HTML-path filter for inputs of one form: text-capable, and attributed
to this form's id, to no form at all, or unconditionally when the form has no
id (`formId === undefined || el.parentFormId === formId ||
el.parentFormId === undefined`). -/
def formScopedInput (formId : Option String) (el : UIElement) : Bool :=
  textCapableInput el &&
    (formId.isNone || el.parentFormId == formId || el.parentFormId.isNone)

/-- The form candidate built for one `<form>` element in the HTML path (the
candidate is only pushed when it has at least one input or a trigger
button). -/
def formCandidateForForm (component : ComponentInfo) (formEl : UIElement) :
    Option ToolCandidate :=
  let formId := formEl.id
  let inputs := component.elements.filter (formScopedInput formId)
  let btnIdx := submitBtnIdxForForm component.elements formId
  let handler := component.eventHandlers.find? (fun h => h.event == "onSubmit")
  if !inputs.isEmpty || btnIdx.isSome then
    some { type := CandidateType.form,
           componentName := component.name,
           triggerElement := btnIdx.bind (fun i => component.elements[i]?),
           inputElements := inputs,
           handler := handler }
  else none

/-- `findHandlerForButton` from `proposal/index.ts`: match by element id
first (when the id is truthy), else by tag-level click-handler presence. -/
def findHandlerForButton (btn : UIElement) (handlers : List EventHandler) :
    Option EventHandler :=
  let byTag := handlers.find? (fun h => h.event == "onClick" && h.elementTag == some "button")
  match btn.id with
  | some bid =>
    if bid.isEmpty then byTag
    else
      match handlers.find? (fun h => h.elementId == some bid && h.event == "onClick") with
      | some h => some h
      | none => byTag
  | none => byTag

/-- The form-path candidates of `groupIntoToolCandidates`, together with the
indices of the buttons consumed as form triggers (the model of the
reference-identity `usedButtons` set). -/
def formPartOfGrouping (component : ComponentInfo) : List ToolCandidate × List ℕ :=
  let submitHandlers := component.eventHandlers.filter (fun h => h.event == "onSubmit")
  if !submitHandlers.isEmpty then
    let btnIdx := submitBtnIdxGlobal component.elements
    (submitHandlers.map (fun h =>
        { type := CandidateType.form,
          componentName := component.name,
          triggerElement := btnIdx.bind (fun i => component.elements[i]?),
          inputElements := component.elements.filter textCapableInput,
          handler := some h }),
      btnIdx.toList)
  else
    let formElements := component.elements.filter (fun el => el.tag == "form")
    if !formElements.isEmpty then
      (formElements.filterMap (formCandidateForForm component),
        formElements.filterMap (fun formEl => submitBtnIdxForForm component.elements formEl.id))
    else
      let inputs := component.elements.filter textCapableInput
      let btnIdx := submitBtnIdxGlobal component.elements
      if !inputs.isEmpty && btnIdx.isSome then
        ([{ type := CandidateType.form,
            componentName := component.name,
            triggerElement := btnIdx.bind (fun i => component.elements[i]?),
            inputElements := inputs,
            handler := none }], btnIdx.toList)
      else ([], [])

/-- `groupIntoToolCandidates` from `proposal/index.ts`: form-path candidates
followed by one standalone action candidate per unclaimed non-submit
button. -/
def groupIntoToolCandidates (component : ComponentInfo) : List ToolCandidate :=
  let formPart := formPartOfGrouping component
  let standalone :=
    (component.elements.enum.filter (fun p =>
        p.2.tag == "button" && p.2.inputType != some "submit" &&
        recLookup p.2.attributes "type" != some "submit" && !formPart.2.contains p.1)).map
      (fun p =>
        { type := CandidateType.action,
          componentName := component.name,
          triggerElement := some p.2,
          inputElements := [],
          handler := findHandlerForButton p.2 component.eventHandlers })
  formPart.1 ++ standalone

/-! ## Name, description and schema generation (`proposal/index.ts`) -/

/-- ASCII uppercase letter. -/
def isUpperAZ (c : Char) : Bool := 'A' ≤ c && c ≤ 'Z'

/-- ASCII lowercase letter. -/
def isLowerAZ (c : Char) : Bool := 'a' ≤ c && c ≤ 'z'

/-- ASCII digit. -/
def isDigit09 (c : Char) : Bool := '0' ≤ c && c ≤ '9'

/-- Character matched by the regex class `[\s\-]`. -/
def isWsOrHyphen (c : Char) : Bool :=
  c == ' ' || c == '\t' || c == '\n' || c == '\r' || c == '\x0b' || c == '\x0c' || c == '-'

/-- Character kept by the regex replacement `[^a-z0-9_]/gi → ""`. -/
def isSnakeKeepChar (c : Char) : Bool :=
  isLowerAZ c || isUpperAZ c || isDigit09 c || c == '_'

/-- Replace every maximal run of whitespace/hyphen characters by a single
underscore (`replace(/[\s\-]+/g, "_")`); the flag records whether the
previous character was part of such a run. -/
def collapseWsRuns : Bool → List Char → List Char
  | _, [] => []
  | inRun, c :: cs =>
    if isWsOrHyphen c then
      if inRun then collapseWsRuns true cs else '_' :: collapseWsRuns true cs
    else c :: collapseWsRuns false cs

/-- Collapse every maximal run of underscores to one (`replace(/_+/g, "_")`). -/
def collapseUnderscores : Bool → List Char → List Char
  | _, [] => []
  | prevU, c :: cs =>
    if c == '_' then
      if prevU then collapseUnderscores true cs else '_' :: collapseUnderscores true cs
    else c :: collapseUnderscores false cs

/-- Remove one leading underscore (half of `replace(/^_|_$/g, "")`). -/
def dropOneLeadUnderscore : List Char → List Char
  | '_' :: cs => cs
  | l => l

/-- `toSnakeCase` from `proposal/index.ts`: underscore before capitals,
whitespace/hyphen runs to underscore, strip non-alphanumerics, collapse
underscore runs, trim one underscore at each edge, lowercase. -/
def toSnakeCase (str : String) : String :=
  let s1 := (str.data.map (fun c => if isUpperAZ c then ['_', c] else [c])).flatten
  let s2 := collapseWsRuns false s1
  let s3 := s2.filter isSnakeKeepChar
  let s4 := collapseUnderscores false s3
  let s5 := (dropOneLeadUnderscore ((dropOneLeadUnderscore s4).reverse)).reverse
  jsToLower ⟨s5⟩

/-- `generateToolName` from `proposal/index.ts`. -/
def generateToolName (candidate : ToolCandidate) : String :=
  let componentSlug := toSnakeCase candidate.componentName
  match candidate.type with
  | CandidateType.form =>
    match (candidate.triggerElement.bind (·.label)).or (candidate.handler.map (·.name)) with
    | some l =>
      if l.isEmpty then "submit_" ++ componentSlug else toSnakeCase l ++ "_" ++ componentSlug
    | none => "submit_" ++ componentSlug
  | CandidateType.action =>
    match ((candidate.triggerElement.bind (·.label)).or
        (candidate.triggerElement.bind (·.id))).or (candidate.handler.map (·.name)) with
    | some l => if l.isEmpty then "action_in_" ++ componentSlug else toSnakeCase l
    | none => "action_in_" ++ componentSlug

/-- `generateDescription` from `proposal/index.ts`. -/
def generateDescription (candidate : ToolCandidate) : String :=
  match candidate.type with
  | CandidateType.form =>
    let btnLabel := candidate.triggerElement.bind (·.label)
    let fields := jsJoin ", "
      (((candidate.inputElements.map
          (fun el => ((el.label.or el.name).or el.id).getD el.tag)).filter
        (fun s => !s.isEmpty)).take 3)
    if optTruthy btnLabel && !fields.isEmpty then
      btnLabel.getD "" ++ " the form with: " ++ fields
    else if optTruthy btnLabel then
      btnLabel.getD "" ++ " the " ++ candidate.componentName ++ " form"
    else "Fill and submit the " ++ candidate.componentName ++ " form"
  | CandidateType.action =>
    match candidate.triggerElement.bind (·.label) with
    | some l =>
      if l.isEmpty then "Perform action in " ++ candidate.componentName else "Trigger: " ++ l
    | none => "Perform action in " ++ candidate.componentName

/-- One property of a proposal's input schema.  The TypeScript interface also
declares an optional `default: unknown` field that the modelled code never
writes or reads; it is omitted. -/
structure ToolInputProperty where
  type : String
  description : String
  enum : Option (List String) := none
deriving DecidableEq, Repr

/-- JSON-Schema-object-shaped input contract; `properties` is an
insertion-ordered map. -/
structure ToolInputSchema where
  type : String := "object"
  properties : List (String × ToolInputProperty) := []
  required : List String := []
deriving DecidableEq, Repr

/-- JavaScript object-key assignment `m[k] = v`: overwrite in place when the
key exists, append otherwise. -/
def recordSetProp (m : List (String × ToolInputProperty)) (k : String)
    (v : ToolInputProperty) : List (String × ToolInputProperty) :=
  if m.any (fun kv => kv.1 == k) then m.map (fun kv => if kv.1 == k then (k, v) else kv)
  else m ++ [(k, v)]

/-- `mapInputTypeToJSONType` from `proposal/index.ts`. -/
def mapInputTypeToJSONType (inputType : String) : String :=
  if inputType == "number" || inputType == "range" then "number"
  else if inputType == "checkbox" then "boolean"
  else if inputType == "date" || inputType == "datetime-local" || inputType == "time" then
    "string"
  else "string"

/-- `buildSchema` from `proposal/index.ts`. -/
def buildSchema (candidate : ToolCandidate) : ToolInputSchema :=
  let step := candidate.inputElements.foldl
    (fun (acc : List (String × ToolInputProperty) × List String) el =>
      match (el.name.or el.id).or ((el.stateBinding.map (·.variableName)).or el.label) with
      | none => acc
      | some fieldName =>
        if fieldName.isEmpty then acc
        else
          let safeKey := toSnakeCase fieldName
          let jsonType := mapInputTypeToJSONType (el.inputType.getD "text")
          let description :=
            (el.label.or (el.accessibilityHints.bind (·.ariaLabel))).getD
              (el.inputType.getD el.tag ++ " field")
          let prop : ToolInputProperty :=
            { type := jsonType,
              description :=
                if el.tag == "select" then description ++ " (select field)" else description }
          (recordSetProp acc.1 safeKey prop,
            if (el.validation.getD []).contains "required" then acc.2 ++ [safeKey]
            else acc.2))
    ([], [])
  { type := "object", properties := step.1, required := step.2 }

/-! ## Confidence stability assessment (`proposal/index.ts`) -/

/-- `Math.max(...scores)` over a non-empty list (the modelled code only calls
it on non-empty lists; the empty case returns 0). -/
def maxScoreList : List ℚ → ℚ
  | [] => 0
  | h :: t => t.foldl max h

/-- Digits-and-dot rendering of a natural number of tenths. -/
def natFixed1 (n : ℕ) : String := toString (n / 10) ++ "." ++ toString (n % 10)

/-- Model of JavaScript `x.toFixed(1)` on a rational: round to the nearest
tenth, ties away from the nearer-to-zero candidate (the ECMAScript rule picks
the larger candidate on the magnitude). -/
def ratToFixed1 (q : ℚ) : String :=
  if q < 0 then "-" ++ natFixed1 (Int.toNat ((-q * 10 + 1/2).floor))
  else natFixed1 (Int.toNat ((q * 10 + 1/2).floor))

/-- Result record of `assessStability`. -/
structure StabilityAssessment where
  isStable : Bool
  unstableReason : Option String := none
deriving DecidableEq, Repr

/-- Reason template: input field with no runtime selector. -/
def inputNoSelectorReason (el : UIElement) : String :=
  "Input field '" ++ ((el.name.or el.id).getD el.tag) ++ "' lacks a runtime selector"

/-- Reason template: input field whose top selector confidence is too low. -/
def inputLowScoreReason (el : UIElement) (topScore : ℚ) : String :=
  "Unstable selector for '" ++ ((el.name.or el.label).getD el.tag) ++
    "' (max confidence: " ++ ratToFixed1 topScore ++ " < 0.6)"

/-- Reason template: trigger with no runtime selector. -/
def triggerNoSelectorReason : String := "Trigger button lacks a runtime selector"

/-- Reason template: trigger whose top selector confidence is too low. -/
def triggerLowScoreReason (topScore : ℚ) : String :=
  "Unstable trigger selector (max confidence: " ++ ratToFixed1 topScore ++ " < 0.6)"

/-- Top fallback-strategy score of an element: `Math.max` over the scores of
its fallback list (0 when the list is absent or empty; the modelled code only
reads this value for non-empty lists). -/
def topScoreOf (el : UIElement) : ℚ :=
  maxScoreList ((el.selectorFallback.getD []).map (fun s => s.score))

/-- The early-returning input loop of `assessStability`: the first offending
input's reason, if any.  `!el.selectorFallback || el.selectorFallback.length
=== 0` is the emptiness of the fallback list read with a `[]` default. -/
def checkInputsStability : List UIElement → Option String
  | [] => none
  | el :: rest =>
    if (el.selectorFallback.getD []).isEmpty then some (inputNoSelectorReason el)
    else if topScoreOf el < 3/5 then some (inputLowScoreReason el (topScoreOf el))
    else checkInputsStability rest

/-- The trigger check of `assessStability`. -/
def checkTriggerStability (triggerElement : Option UIElement) : Option String :=
  match triggerElement with
  | none => none
  | some trg =>
    if (trg.selectorFallback.getD []).isEmpty then some triggerNoSelectorReason
    else if topScoreOf trg < 3/5 then some (triggerLowScoreReason (topScoreOf trg)) else none

/-- `assessStability` from `proposal/index.ts`: the Confidence Threshold
Policy with inclusive stability boundary at 0.6. -/
def assessStability (candidate : ToolCandidate) : StabilityAssessment :=
  match checkInputsStability candidate.inputElements with
  | some r => ⟨false, some r⟩
  | none =>
    match checkTriggerStability candidate.triggerElement with
    | some r => ⟨false, some r⟩
    | none => ⟨true, none⟩

/-! ## SHA-256 (`node:crypto` `createHash("sha256")`), over naturals mod 2^32 -/

/-- 32-bit right rotation. -/
def rotr32 (n x : ℕ) : ℕ := ((x >>> n) ||| (x <<< (32 - n))) % 4294967296

/-- 32-bit modular addition. -/
def add32 (a b : ℕ) : ℕ := (a + b) % 4294967296

/-- SHA-256 Σ₀. -/
def bigSigma0 (x : ℕ) : ℕ := (rotr32 2 x) ^^^ (rotr32 13 x) ^^^ (rotr32 22 x)

/-- SHA-256 Σ₁. -/
def bigSigma1 (x : ℕ) : ℕ := (rotr32 6 x) ^^^ (rotr32 11 x) ^^^ (rotr32 25 x)

/-- SHA-256 σ₀. -/
def smallSigma0 (x : ℕ) : ℕ := (rotr32 7 x) ^^^ (rotr32 18 x) ^^^ (x >>> 3)

/-- SHA-256 σ₁. -/
def smallSigma1 (x : ℕ) : ℕ := (rotr32 17 x) ^^^ (rotr32 19 x) ^^^ (x >>> 10)

/-- The 64 SHA-256 round constants (FIPS 180-4, written in decimal). -/
def sha256K : List ℕ :=
  [1116352408, 1899447441, 3049323471, 3921009573, 961987163,
   1508970993, 2453635748, 2870763221, 3624381080, 310598401,
   607225278, 1426881987, 1925078388, 2162078206, 2614888103,
   3248222580, 3835390401, 4022224774, 264347078, 604807628,
   770255983, 1249150122, 1555081692, 1996064986, 2554220882,
   2821834349, 2952996808, 3210313671, 3336571891, 3584528711,
   113926993, 338241895, 666307205, 773529912, 1294757372,
   1396182291, 1695183700, 1986661051, 2177026350, 2456956037,
   2730485921, 2820302411, 3259730800, 3345764771, 3516065817,
   3600352804, 4094571909, 275423344, 430227734, 506948616,
   659060556, 883997877, 958139571, 1322822218, 1537002063,
   1747873779, 1955562222, 2024104815, 2227730452, 2361852424,
   2428436474, 2756734187, 3204031479, 3329325298]

/-- The SHA-256 initial hash value (FIPS 180-4, written in decimal). -/
def sha256H0 : List ℕ :=
  [1779033703, 3144134277, 1013904242, 2773480762,
   1359893119, 2600822924, 528734635, 1541459225]

/-- UTF-8 encoding of one character as a byte list. -/
def utf8EncodeChar (c : Char) : List ℕ :=
  let n := c.toNat
  if n < 0x80 then [n]
  else if n < 0x800 then [0xC0 ||| (n >>> 6), 0x80 ||| (n &&& 0x3F)]
  else if n < 0x10000 then
    [0xE0 ||| (n >>> 12), 0x80 ||| ((n >>> 6) &&& 0x3F), 0x80 ||| (n &&& 0x3F)]
  else
    [0xF0 ||| (n >>> 18), 0x80 ||| ((n >>> 12) &&& 0x3F),
     0x80 ||| ((n >>> 6) &&& 0x3F), 0x80 ||| (n &&& 0x3F)]

/-- UTF-8 byte encoding of a string. -/
def utf8Bytes (s : String) : List ℕ := (s.data.map utf8EncodeChar).flatten

/-- SHA-256 padding: append `0x80`, zero bytes to 56 mod 64, then the bit
length as 8 big-endian bytes. -/
def sha256Pad (msg : List ℕ) : List ℕ :=
  let len := msg.length
  let bitLen := len * 8
  let zeros := (120 - ((len + 1) % 64)) % 64
  msg ++ [0x80] ++ List.replicate zeros 0 ++
    [(bitLen >>> 56) &&& 0xFF, (bitLen >>> 48) &&& 0xFF, (bitLen >>> 40) &&& 0xFF,
     (bitLen >>> 32) &&& 0xFF, (bitLen >>> 24) &&& 0xFF, (bitLen >>> 16) &&& 0xFF,
     (bitLen >>> 8) &&& 0xFF, bitLen &&& 0xFF]

/-- Split a byte list into 64-byte chunks (fuel-driven structural recursion). -/
def chunks64Go : ℕ → List ℕ → List (List ℕ)
  | _, [] => []
  | 0, _ => []
  | fuel + 1, l => l.take 64 :: chunks64Go fuel (l.drop 64)

/-- Split a byte list into 64-byte chunks. -/
def chunks64 (l : List ℕ) : List (List ℕ) := chunks64Go l.length l

/-- Combine bytes into big-endian 32-bit words. -/
def bytesToWords : List ℕ → List ℕ
  | b0 :: b1 :: b2 :: b3 :: rest =>
    (((b0 * 256 + b1) * 256 + b2) * 256 + b3) :: bytesToWords rest
  | _ => []

/-- One message-schedule extension step from the last 16 words. -/
def schedStep (w : List ℕ) : ℕ :=
  let n := w.length
  let g : ℕ → ℕ := fun k => w.getD (n - k) 0
  add32 (add32 (smallSigma1 (g 2)) (g 7)) (add32 (smallSigma0 (g 15)) (g 16))

/-- Extend the 16-word block to the full 64-word schedule. -/
def extendW : ℕ → List ℕ → List ℕ
  | 0, w => w
  | fuel + 1, w => extendW fuel (w ++ [schedStep w])

/-- One SHA-256 compression round on the 8-word working state. -/
def sha256Round (st : List ℕ) (kw : ℕ × ℕ) : List ℕ :=
  match st with
  | [a, b, c, d, e, f, g, h] =>
    let s1 := bigSigma1 e
    let ch := (e &&& f) ^^^ ((4294967295 ^^^ e) &&& g)
    let temp1 := add32 h (add32 s1 (add32 ch (add32 kw.1 kw.2)))
    let s0 := bigSigma0 a
    let maj := (a &&& b) ^^^ (a &&& c) ^^^ (b &&& c)
    let temp2 := add32 s0 maj
    [add32 temp1 temp2, a, b, c, add32 d temp1, e, f, g]
  | other => other

/-- Process one 64-byte block against the running hash state. -/
def sha256Block (hstate : List ℕ) (block : List ℕ) : List ℕ :=
  let w := extendW 48 (bytesToWords block)
  let final := (sha256K.zip w).foldl sha256Round hstate
  (hstate.zip final).map (fun p => add32 p.1 p.2)

/-- SHA-256 digest of a byte list, as 32 bytes. -/
def sha256Digest (msg : List ℕ) : List ℕ :=
  let final := (chunks64 (sha256Pad msg)).foldl sha256Block sha256H0
  (final.map (fun x =>
    [(x >>> 24) &&& 0xFF, (x >>> 16) &&& 0xFF, (x >>> 8) &&& 0xFF, x &&& 0xFF])).flatten

/-- Lowercase hex digit. -/
def hexDigit (n : ℕ) : Char :=
  if n < 10 then Char.ofNat (48 + n) else Char.ofNat (87 + n)

/-- Two-digit lowercase hex rendering of one byte. -/
def byteToHex (b : ℕ) : List Char := [hexDigit (b / 16), hexDigit (b % 16)]

/-- `createHash("sha256").update(s).digest("hex")`. -/
def sha256Hex (s : String) : String :=
  ⟨((sha256Digest (utf8Bytes s)).map byteToHex).flatten⟩

/-! ## Stable tool id and proposal building (`proposal/index.ts`) -/

/-- The ordered semantic payload parts of `generateToolId`: component name,
candidate type, trigger tag/label/name-attribute, and per input the resolved
field identifier, label-or-aria-label, and subtype-or-tag. -/
def toolIdParts (candidate : ToolCandidate) : List String :=
  [candidate.componentName, candidateTypeStr candidate.type] ++
  (match candidate.triggerElement with
   | some t => [t.tag, t.label.getD "", (recLookup t.attributes "name").getD ""]
   | none => []) ++
  (candidate.inputElements.map (fun el =>
    [((el.name.or el.id).or (el.stateBinding.map (·.variableName))).getD "",
     (el.label.or (el.accessibilityHints.bind (·.ariaLabel))).getD "",
     el.inputType.getD el.tag])).flatten

/-- `generateToolId` from `proposal/index.ts`: the 12-hex-character prefix of
the SHA-256 digest of the lowercased, pipe-joined semantic payload. -/
def generateToolId (candidate : ToolCandidate) : String :=
  (sha256Hex (jsToLower (jsJoin "|" (toolIdParts candidate)))).take 12

/-- The source-mapping back-reference carried by a proposal. -/
structure SourceMapping where
  componentName : String
  triggerElement : Option UIElement := none
  inputElements : List UIElement := []
  handler : Option EventHandler := none
deriving DecidableEq, Repr

/-- The terminal user-facing proposal record. -/
structure ToolProposal where
  index : ℕ
  id : String
  name : String
  description : String
  risk : ToolRisk
  riskReason : Option String := none
  isStable : Bool
  unstableReason : Option String := none
  selected : Bool
  inputSchema : ToolInputSchema
  sourceMapping : SourceMapping
deriving DecidableEq, Repr

/-- Construction of one proposal record inside the `buildProposals` loop. -/
def mkProposal (idx : ℕ) (candidate : ToolCandidate) (risk : ToolRisk) (reason : String) :
    ToolProposal :=
  let sa := assessStability candidate
  { index := idx,
    id := generateToolId candidate,
    name := generateToolName candidate,
    description := generateDescription candidate,
    risk := risk,
    riskReason := some reason,
    isStable := sa.isStable,
    unstableReason := sa.unstableReason,
    selected := (risk != ToolRisk.destructive) && sa.isStable,
    inputSchema := buildSchema candidate,
    sourceMapping :=
      { componentName := candidate.componentName,
        triggerElement := candidate.triggerElement,
        inputElements := candidate.inputElements,
        handler := candidate.handler } }

/-- The inner candidate loop of `buildProposals`: classify, drop excluded
candidates without consuming an index, and build the rest. -/
def processCandidates : List ToolCandidate → ℕ → List ToolProposal × ℕ
  | [], idx => ([], idx)
  | c :: rest, idx =>
    let rc := classifyRisk c.triggerElement c.handler
    if rc.risk == ToolRisk.excluded then processCandidates rest idx
    else
      let p := mkProposal idx c rc.risk rc.reason
      let next := processCandidates rest (idx + 1)
      (p :: next.1, next.2)

/-- The outer component loop of `buildProposals` (the display index threads
across components). -/
def buildProposalsAux : List ComponentInfo → ℕ → List ToolProposal
  | [], _ => []
  | comp :: rest, idx =>
    let step := processCandidates (groupIntoToolCandidates comp) idx
    step.1 ++ buildProposalsAux rest step.2

/-- `buildProposals` from `proposal/index.ts`. -/
def buildProposals (analysis : ComponentAnalysis) : List ToolProposal :=
  buildProposalsAux analysis.components 1


/-- Spec-side reading of the stability gate for one element: no fallback list
at all (or an empty one), or top strategy score strictly below 0.6. -/
def selectorUnstableB (el : UIElement) : Bool :=
  (el.selectorFallback.getD []).isEmpty || decide (topScoreOf el < 3/5)

/-- Spec-side reading of the stability gate for a proposal's source mapping:
some input element or the trigger element is unstable. -/
def candidateUnstableB (sm : SourceMapping) : Bool :=
  sm.inputElements.any selectorUnstableB ||
    (match sm.triggerElement with
     | some trg => selectorUnstableB trg
     | none => false)

/-- Spec-side reading of the unstable-reason requirement: the recorded reason
names an offending field or states that a runtime selector is lacking. -/
def unstableReasonShapeB (p : ToolProposal) : Bool :=
  match p.unstableReason with
  | none => false
  | some r =>
    p.sourceMapping.inputElements.any (fun el =>
      r == inputNoSelectorReason el || r == inputLowScoreReason el (topScoreOf el)) ||
    (match p.sourceMapping.triggerElement with
     | some trg => r == triggerNoSelectorReason || r == triggerLowScoreReason (topScoreOf trg)
     | none => false)

theorem checkInputsStability_eq_none_iff (l : List UIElement) :
    checkInputsStability l = none ↔ l.any selectorUnstableB = false := by
  induction l with
  | nil => simp [checkInputsStability]
  | cons el rest ih =>
    simp only [checkInputsStability, List.any_cons]
    by_cases hemp : (el.selectorFallback.getD []).isEmpty
    · simp [hemp, selectorUnstableB]
    · by_cases hlow : topScoreOf el < 3/5
      · simp [hemp, hlow, selectorUnstableB]
      · simp [hemp, hlow, selectorUnstableB, ih]

theorem checkTriggerStability_eq_none_iff (topt : Option UIElement) :
    checkTriggerStability topt = none ↔
      (match topt with | some trg => selectorUnstableB trg | none => false) = false := by
  cases topt with
  | none => simp [checkTriggerStability]
  | some trg =>
    simp only [checkTriggerStability]
    by_cases hemp : (trg.selectorFallback.getD []).isEmpty
    · simp [hemp, selectorUnstableB]
    · by_cases hlow : topScoreOf trg < 3/5
      · simp [hemp, hlow, selectorUnstableB]
      · simp [hemp, hlow, selectorUnstableB]

theorem assessStability_isStable_iff (c : ToolCandidate) :
    ((assessStability c).isStable = false) ↔
      candidateUnstableB
        { componentName := c.componentName, triggerElement := c.triggerElement,
          inputElements := c.inputElements, handler := c.handler } = true := by
  unfold assessStability candidateUnstableB
  cases hci : checkInputsStability c.inputElements with
  | some r =>
    have hany : c.inputElements.any selectorUnstableB = true := by
      rcases Bool.eq_false_or_eq_true (c.inputElements.any selectorUnstableB) with h2 | h2
      · exact h2
      · rw [← checkInputsStability_eq_none_iff] at h2
        rw [h2] at hci
        cases hci
    simp [hany]
  | none =>
    have h1 : c.inputElements.any selectorUnstableB = false :=
      (checkInputsStability_eq_none_iff _).mp hci
    cases hct : checkTriggerStability c.triggerElement with
    | some r =>
      have h2 : (match c.triggerElement with
          | some trg => selectorUnstableB trg
          | none => false) = true := by
        rcases Bool.eq_false_or_eq_true (match c.triggerElement with
            | some trg => selectorUnstableB trg
            | none => false) with h3 | h3
        · exact h3
        · rw [← checkTriggerStability_eq_none_iff] at h3
          rw [h3] at hct
          cases hct
      simp [h1, h2]
    | none =>
      have h2 := (checkTriggerStability_eq_none_iff _).mp hct
      simp [h1, h2]

theorem checkInputsStability_some_shape (l : List UIElement) (r : String)
    (h : checkInputsStability l = some r) :
    ∃ el ∈ l, r = inputNoSelectorReason el ∨ r = inputLowScoreReason el (topScoreOf el) := by
  induction l with
  | nil => simp [checkInputsStability] at h
  | cons el rest ih =>
    simp only [checkInputsStability] at h
    by_cases hemp : (el.selectorFallback.getD []).isEmpty
    · rw [if_pos hemp] at h
      injection h with h
      exact ⟨el, List.mem_cons_self _ _, Or.inl h.symm⟩
    · rw [if_neg hemp] at h
      by_cases hlow : topScoreOf el < 3/5
      · rw [if_pos hlow] at h
        injection h with h
        exact ⟨el, List.mem_cons_self _ _, Or.inr h.symm⟩
      · rw [if_neg hlow] at h
        obtain ⟨el', hel', hor⟩ := ih h
        exact ⟨el', List.mem_cons_of_mem el hel', hor⟩

theorem checkTriggerStability_some_shape (topt : Option UIElement) (r : String)
    (h : checkTriggerStability topt = some r) :
    ∃ trg, topt = some trg ∧
      (r = triggerNoSelectorReason ∨ r = triggerLowScoreReason (topScoreOf trg)) := by
  cases topt with
  | none => simp [checkTriggerStability] at h
  | some trg =>
    simp only [checkTriggerStability] at h
    refine ⟨trg, rfl, ?_⟩
    by_cases hemp : (trg.selectorFallback.getD []).isEmpty
    · rw [if_pos hemp] at h
      injection h with h
      exact Or.inl h.symm
    · rw [if_neg hemp] at h
      by_cases hlow : topScoreOf trg < 3/5
      · rw [if_pos hlow] at h
        injection h with h
        exact Or.inr h.symm
      · rw [if_neg hlow] at h
        cases h

theorem assessStability_reasonB (c : ToolCandidate)
    (h : (assessStability c).isStable = false) :
    (match (assessStability c).unstableReason with
     | none => false
     | some r =>
       c.inputElements.any (fun el =>
         r == inputNoSelectorReason el || r == inputLowScoreReason el (topScoreOf el)) ||
       (match c.triggerElement with
        | some trg => r == triggerNoSelectorReason || r == triggerLowScoreReason (topScoreOf trg)
        | none => false)) = true := by
  unfold assessStability at h ⊢
  cases hci : checkInputsStability c.inputElements with
  | some r =>
    dsimp only
    obtain ⟨el, hel, hor⟩ := checkInputsStability_some_shape _ _ hci
    have hany : c.inputElements.any (fun el =>
        r == inputNoSelectorReason el || r == inputLowScoreReason el (topScoreOf el)) = true := by
      rw [List.any_eq_true]
      refine ⟨el, hel, ?_⟩
      rcases hor with rfl | rfl <;> simp
    simp [hany]
  | none =>
    dsimp only at h ⊢
    cases hct : checkTriggerStability c.triggerElement with
    | some r =>
      dsimp only
      obtain ⟨trg, htrg, hor⟩ := checkTriggerStability_some_shape _ _ hct
      rw [htrg]
      have : (r == triggerNoSelectorReason || r == triggerLowScoreReason (topScoreOf trg)) =
          true := by
        rcases hor with rfl | rfl <;> simp
      simp [this]
    | none =>
      simp only [hci, hct] at h
      simp at h


/-! ## Claim theorems: proposal building -/

theorem mem_processCandidates (cands : List ToolCandidate) (idx : ℕ) (p : ToolProposal)
    (hp : p ∈ (processCandidates cands idx).1) :
    ∃ (i : ℕ) (c : ToolCandidate), c ∈ cands ∧
      (classifyRisk c.triggerElement c.handler).risk ≠ ToolRisk.excluded ∧
      p = mkProposal i c (classifyRisk c.triggerElement c.handler).risk
          (classifyRisk c.triggerElement c.handler).reason := by
  induction cands generalizing idx with
  | nil => simp [processCandidates] at hp
  | cons c rest ih =>
    simp only [processCandidates] at hp
    by_cases hex : (classifyRisk c.triggerElement c.handler).risk == ToolRisk.excluded
    · rw [if_pos hex] at hp
      obtain ⟨i, c', hc', hne, heq⟩ := ih idx hp
      exact ⟨i, c', List.mem_cons_of_mem c hc', hne, heq⟩
    · rw [if_neg hex] at hp
      simp only [List.mem_cons] at hp
      rcases hp with rfl | hp
      · refine ⟨idx, c, List.mem_cons_self c rest, ?_, rfl⟩
        intro hcon
        exact hex (by rw [hcon]; rfl)
      · obtain ⟨i, c', hc', hne, heq⟩ := ih (idx + 1) hp
        exact ⟨i, c', List.mem_cons_of_mem c hc', hne, heq⟩

theorem mem_buildProposalsAux (comps : List ComponentInfo) (idx : ℕ) (p : ToolProposal)
    (hp : p ∈ buildProposalsAux comps idx) :
    ∃ (i : ℕ) (c : ToolCandidate),
      (classifyRisk c.triggerElement c.handler).risk ≠ ToolRisk.excluded ∧
      p = mkProposal i c (classifyRisk c.triggerElement c.handler).risk
          (classifyRisk c.triggerElement c.handler).reason := by
  induction comps generalizing idx with
  | nil => simp [buildProposalsAux] at hp
  | cons comp rest ih =>
    simp only [buildProposalsAux, List.mem_append] at hp
    rcases hp with hp | hp
    · obtain ⟨i, c, _, hne, heq⟩ := mem_processCandidates _ _ _ hp
      exact ⟨i, c, hne, heq⟩
    · exact ih _ hp

theorem mem_buildProposals (analysis : ComponentAnalysis) (p : ToolProposal)
    (hp : p ∈ buildProposals analysis) :
    ∃ (i : ℕ) (c : ToolCandidate),
      (classifyRisk c.triggerElement c.handler).risk ≠ ToolRisk.excluded ∧
      p = mkProposal i c (classifyRisk c.triggerElement c.handler).risk
          (classifyRisk c.triggerElement c.handler).reason :=
  mem_buildProposalsAux analysis.components 1 p hp

theorem mkProposal_index (i : ℕ) (c : ToolCandidate) (r : ToolRisk) (s : String) :
    (mkProposal i c r s).index = i := rfl

theorem mkProposal_risk (i : ℕ) (c : ToolCandidate) (r : ToolRisk) (s : String) :
    (mkProposal i c r s).risk = r := rfl

theorem mkProposal_isStable (i : ℕ) (c : ToolCandidate) (r : ToolRisk) (s : String) :
    (mkProposal i c r s).isStable = (assessStability c).isStable := rfl

theorem mkProposal_unstableReason (i : ℕ) (c : ToolCandidate) (r : ToolRisk) (s : String) :
    (mkProposal i c r s).unstableReason = (assessStability c).unstableReason := rfl

theorem mkProposal_selected (i : ℕ) (c : ToolCandidate) (r : ToolRisk) (s : String) :
    (mkProposal i c r s).selected =
      ((r != ToolRisk.destructive) && (assessStability c).isStable) := rfl

theorem mkProposal_sourceMapping (i : ℕ) (c : ToolCandidate) (r : ToolRisk) (s : String) :
    (mkProposal i c r s).sourceMapping =
      { componentName := c.componentName, triggerElement := c.triggerElement,
        inputElements := c.inputElements, handler := c.handler } := rfl

/-- C6.  Every proposal built by `buildProposals` is selected exactly when its
risk is not destructive and its stability assessment marked it stable:
destructive risk or an unstable marking forces `selected = false`, and
otherwise the proposal defaults to selected. -/
theorem buildProposals_selected (analysis : ComponentAnalysis) :
    (buildProposals analysis).all
      (fun p => p.selected == ((p.risk != ToolRisk.destructive) && p.isStable)) = true := by
  rw [List.all_eq_true]
  intro p hp
  obtain ⟨i, c, _, rfl⟩ := mem_buildProposals analysis p hp
  rw [mkProposal_selected, mkProposal_risk, mkProposal_isStable]
  simp

theorem processCandidates_spec (cands : List ToolCandidate) (idx : ℕ) :
    ((processCandidates cands idx).1.map (·.index) =
      List.range' idx (processCandidates cands idx).1.length) ∧
    (processCandidates cands idx).2 = idx + (processCandidates cands idx).1.length := by
  induction cands generalizing idx with
  | nil => simp [processCandidates]
  | cons c rest ih =>
    simp only [processCandidates]
    by_cases hex : (classifyRisk c.triggerElement c.handler).risk == ToolRisk.excluded
    · rw [if_pos hex]
      exact ih idx
    · rw [if_neg hex]
      obtain ⟨ih1, ih2⟩ := ih (idx + 1)
      constructor
      · simp only [List.map_cons, List.length_cons, mkProposal_index, ih1, List.range'_succ]
      · simp only [List.length_cons, ih2]
        omega

theorem buildProposalsAux_indices (comps : List ComponentInfo) (idx : ℕ) :
    (buildProposalsAux comps idx).map (·.index) =
      List.range' idx (buildProposalsAux comps idx).length := by
  induction comps generalizing idx with
  | nil => simp [buildProposalsAux]
  | cons comp rest ih =>
    simp only [buildProposalsAux, List.map_append, List.length_append]
    obtain ⟨h1, h2⟩ := processCandidates_spec (groupIntoToolCandidates comp) idx
    rw [h1, h2, ih]
    have := List.range'_append idx
      ((processCandidates (groupIntoToolCandidates comp) idx).1.length)
      ((buildProposalsAux rest
        (idx + (processCandidates (groupIntoToolCandidates comp) idx).1.length)).length) 1
    rw [Nat.add_comm ((processCandidates (groupIntoToolCandidates comp) idx).1.length)]
    rw [← this, one_mul]

/-- C5.  No proposal returned by `buildProposals` has risk `excluded`, and
the display indices of the returned list are exactly 1, 2, ..., n in output
order: excluded candidates never consume an index or appear in the output. -/
theorem buildProposals_noExcluded_indices (analysis : ComponentAnalysis) :
    ((buildProposals analysis).all (fun p => !(p.risk == ToolRisk.excluded))) = true ∧
    (buildProposals analysis).map (·.index) =
      List.range' 1 (buildProposals analysis).length := by
  constructor
  · rw [List.all_eq_true]
    intro p hp
    obtain ⟨i, c, hne, rfl⟩ := mem_buildProposals analysis p hp
    rw [mkProposal_risk]
    simp [hne]
  · exact buildProposalsAux_indices analysis.components 1

/-- C4.  A proposal is marked unstable exactly when some input element or the
trigger element of its candidate has no (or an empty) selector-fallback list
or a top strategy score strictly below 0.6; every unstable marking carries a
reason naming the offending field or stating that a runtime selector is
lacking; the boundary is inclusive at 0.6: a sole input with top score 0.59
is unstable, with exactly 0.6 it is stable. -/
theorem buildProposals_stability_gate (analysis : ComponentAnalysis) :
    ((buildProposals analysis).all
        (fun p => (p.isStable == false) == candidateUnstableB p.sourceMapping) = true)
    ∧ ((buildProposals analysis).all
        (fun p => p.isStable || unstableReasonShapeB p) = true)
    ∧ (assessStability
        { type := CandidateType.form, componentName := "c",
          inputElements :=
            [{ tag := "input",
               selectorFallback := some [⟨StrategyKind.css, "input", 59/100⟩] }] }).isStable
        = false
    ∧ (assessStability
        { type := CandidateType.form, componentName := "c",
          inputElements :=
            [{ tag := "input",
               selectorFallback := some [⟨StrategyKind.css, "input", 3/5⟩] }] }).isStable
        = true := by
  refine ⟨?_, ?_,
    by norm_num [assessStability, checkInputsStability, topScoreOf, maxScoreList],
    by norm_num [assessStability, checkInputsStability, checkTriggerStability, topScoreOf,
      maxScoreList]⟩
  · rw [List.all_eq_true]
    intro p hp
    obtain ⟨i, c, _, rfl⟩ := mem_buildProposals analysis p hp
    rw [mkProposal_isStable, mkProposal_sourceMapping]
    rcases Bool.eq_false_or_eq_true (assessStability c).isStable with hb | hb
    · rw [hb]
      have hcu : candidateUnstableB
          { componentName := c.componentName, triggerElement := c.triggerElement,
            inputElements := c.inputElements, handler := c.handler } = false := by
        rcases Bool.eq_false_or_eq_true (candidateUnstableB
            { componentName := c.componentName, triggerElement := c.triggerElement,
              inputElements := c.inputElements, handler := c.handler }) with h2 | h2
        · have := (assessStability_isStable_iff c).mpr h2
          rw [hb] at this
          cases this
        · exact h2
      rw [hcu]
      rfl
    · rw [hb, (assessStability_isStable_iff c).mp hb]
      rfl
  · rw [List.all_eq_true]
    intro p hp
    obtain ⟨i, c, _, rfl⟩ := mem_buildProposals analysis p hp
    rcases Bool.eq_false_or_eq_true (assessStability c).isStable with hb | hb
    · rw [mkProposal_isStable, hb]
      simp
    · have hshape := assessStability_reasonB c hb
      rw [mkProposal_isStable, hb]
      simp only [Bool.false_or]
      unfold unstableReasonShapeB
      rw [mkProposal_unstableReason, mkProposal_sourceMapping]
      simpa using hshape


/-! ## Claim theorems: form-path grouping -/

theorem formCandidateForForm_some (component : ComponentInfo) (formEl : UIElement)
    (c : ToolCandidate) (h : formCandidateForForm component formEl = some c) :
    c.type = CandidateType.form ∧
    c.inputElements = component.elements.filter (formScopedInput formEl.id) := by
  unfold formCandidateForForm at h
  by_cases hg : !(component.elements.filter (formScopedInput formEl.id)).isEmpty ||
      (submitBtnIdxForForm component.elements formEl.id).isSome
  · rw [if_pos hg] at h
    injection h with h
    subst h
    exact ⟨rfl, rfl⟩
  · rw [if_neg hg] at h
    cases h

theorem mem_filterMap_formCandidate_type (component : ComponentInfo) (l : List UIElement)
    (c : ToolCandidate) (hc : c ∈ l.filterMap (formCandidateForForm component)) :
    c.type = CandidateType.form := by
  obtain ⟨formEl, _, heq⟩ := List.mem_filterMap.mp hc
  exact (formCandidateForForm_some component formEl c heq).1

theorem formPartOfGrouping_htmlPath (component : ComponentInfo)
    (hns : component.eventHandlers.filter (fun h => h.event == "onSubmit") = [])
    (hf : component.elements.filter (fun el => el.tag == "form") ≠ []) :
    (formPartOfGrouping component).1 =
      (component.elements.filter (fun el => el.tag == "form")).filterMap
        (formCandidateForForm component) := by
  unfold formPartOfGrouping
  rw [hns]
  simp only [List.isEmpty_nil, Bool.not_true, Bool.false_eq_true, if_false]
  rw [if_pos (by simpa using hf)]

theorem groupIntoToolCandidates_formFilter (component : ComponentInfo)
    (hns : component.eventHandlers.filter (fun h => h.event == "onSubmit") = [])
    (hf : component.elements.filter (fun el => el.tag == "form") ≠ []) :
    (groupIntoToolCandidates component).filter (fun c => c.type == CandidateType.form) =
      (component.elements.filter (fun el => el.tag == "form")).filterMap
        (formCandidateForForm component) := by
  unfold groupIntoToolCandidates
  rw [List.filter_append]
  have h1 : ((formPartOfGrouping component).1.filter (fun c => c.type == CandidateType.form)) =
      (formPartOfGrouping component).1 := by
    rw [List.filter_eq_self]
    intro c hc
    rw [formPartOfGrouping_htmlPath component hns hf] at hc
    rw [mem_filterMap_formCandidate_type component _ c hc]
    rfl
  have h2 : (((component.elements.enum.filter (fun p =>
        p.2.tag == "button" && p.2.inputType != some "submit" &&
        recLookup p.2.attributes "type" != some "submit" &&
        !(formPartOfGrouping component).2.contains p.1)).map
      (fun p =>
        ({ type := CandidateType.action,
           componentName := component.name,
           triggerElement := some p.2,
           inputElements := [],
           handler := findHandlerForButton p.2 component.eventHandlers } : ToolCandidate))).filter
      (fun c => c.type == CandidateType.form)) = [] := by
    rw [List.filter_eq_nil_iff]
    intro c hc
    obtain ⟨p, _, hp⟩ := List.mem_map.mp hc
    subst hp
    simp
  rw [h1, h2, List.append_nil]
  exact formPartOfGrouping_htmlPath component hns hf

/-- C8 (amended).  For a component with no submit-kind handlers and at least
one form element, the form candidates are exactly one per form element whose
candidate has at least one eligible input or an available trigger button;
each candidate's inputs are the text-capable input/textarea/select elements
(excluding password and file inputs) whose parent-form identifier equals the
form's id or is absent (when the form has no id, all such inputs pass), so an
input attributed to a different sibling form never appears in the candidate
of a form that has an id. -/
theorem groupIntoToolCandidates_formPath (component : ComponentInfo)
    (hns : component.eventHandlers.filter (fun h => h.event == "onSubmit") = [])
    (hf : component.elements.filter (fun el => el.tag == "form") ≠ []) :
    ((groupIntoToolCandidates component).filter (fun c => c.type == CandidateType.form) =
      (component.elements.filter (fun el => el.tag == "form")).filterMap
        (formCandidateForForm component))
    ∧ (∀ c ∈ (groupIntoToolCandidates component).filter
          (fun c => c.type == CandidateType.form),
        ∀ el ∈ c.inputElements, textCapableInput el = true)
    ∧ (∀ formEl ∈ component.elements.filter (fun el => el.tag == "form"),
        ∀ c, formCandidateForForm component formEl = some c →
          ∀ el ∈ c.inputElements, ∀ fid, formEl.id = some fid →
            (el.parentFormId = some fid ∨ el.parentFormId = none)) := by
  refine ⟨groupIntoToolCandidates_formFilter component hns hf, ?_, ?_⟩
  · intro c hc el hel
    rw [groupIntoToolCandidates_formFilter component hns hf] at hc
    obtain ⟨formEl, _, heq⟩ := List.mem_filterMap.mp hc
    obtain ⟨_, hinp⟩ := formCandidateForForm_some component formEl c heq
    rw [hinp] at hel
    have := (List.mem_filter.mp hel).2
    unfold formScopedInput at this
    rw [Bool.and_eq_true] at this
    exact this.1
  · intro formEl _ c heq el hel fid hfid
    obtain ⟨_, hinp⟩ := formCandidateForForm_some component formEl c heq
    rw [hinp] at hel
    have hsc := (List.mem_filter.mp hel).2
    unfold formScopedInput at hsc
    rw [Bool.and_eq_true] at hsc
    have hdisj := hsc.2
    rw [hfid] at hdisj
    simp only [Option.isNone_some, Bool.false_or, Bool.or_eq_true] at hdisj
    rcases hdisj with h | h
    · exact Or.inl (by simpa using h)
    · exact Or.inr (by simpa using h)

/-- C8 counterexample.  A component with no submit handlers, one form with
id "a", and a form-free text input: the form's candidate includes that input
even though its parent-form identifier (none) differs from the form's id, so
the candidate's input list is not restricted to elements attributed to the
form's nesting boundary. -/
theorem groupIntoToolCandidates_formScope_cex :
    (groupIntoToolCandidates
        { name := "C", type := ComponentType.form,
          elements :=
            [{ tag := "form", id := some "a" },
             { tag := "input", inputType := some "text" }],
          eventHandlers := [] }).map
      (fun c => (c.type, c.inputElements.map (fun el => el.parentFormId))) =
      [(CandidateType.form, [(none : Option String)])] := by decide

/-- Witness for C8 (amended): the form-candidate characterization evaluated
on a concrete component with one form and one properly attributed input. -/
theorem groupIntoToolCandidates_formPath_witness :
    (groupIntoToolCandidates
        { name := "C", type := ComponentType.form,
          elements :=
            [{ tag := "form", id := some "b" },
             { tag := "input", inputType := some "text", parentFormId := some "b" }],
          eventHandlers := [] }).filter (fun c => c.type == CandidateType.form) =
      (({ name := "C", type := ComponentType.form,
          elements :=
            [{ tag := "form", id := some "b" },
             { tag := "input", inputType := some "text", parentFormId := some "b" }],
          eventHandlers := [] } : ComponentInfo).elements.filter
          (fun el => el.tag == "form")).filterMap
        (formCandidateForForm
          { name := "C", type := ComponentType.form,
            elements :=
              [{ tag := "form", id := some "b" },
               { tag := "input", inputType := some "text", parentFormId := some "b" }],
            eventHandlers := [] }) :=
  (groupIntoToolCandidates_formPath _ (by decide) (by decide)).1


/-! ## Claim theorems: stable tool identity -/

theorem jsToLower_append (a b : String) : jsToLower (a ++ b) = jsToLower a ++ jsToLower b := by
  apply String.ext
  simp [jsToLower, String.data_append]

theorem jsToLower_jsJoin_bar (l : List String) :
    jsToLower (jsJoin "|" l) = jsJoin "|" (l.map jsToLower) := by
  induction l with
  | nil => rfl
  | cons s rest ih =>
    cases rest with
    | nil => rfl
    | cons r t =>
      show jsToLower (s ++ "|" ++ jsJoin "|" (r :: t)) =
        jsToLower s ++ "|" ++ jsJoin "|" ((r :: t).map jsToLower)
      rw [jsToLower_append, jsToLower_append, ih]
      rfl

/-- C2.  The stable tool id is a pure function of the candidate's semantic
fields only: two candidates that agree (after lowercasing) on component name,
candidate type, the trigger element's tag, label and name attribute, and on
each input element's resolved field identifier, label-or-aria-label, and
subtype-or-tag, in order, receive byte-identical ids, whatever their other
fields (attributes, positions, validation, selector data) are. -/
theorem generateToolId_semantic (c1 c2 : ToolCandidate)
    (hname : jsToLower c1.componentName = jsToLower c2.componentName)
    (htype : c1.type = c2.type)
    (htrig : c1.triggerElement.map (fun t =>
        [jsToLower t.tag, jsToLower (t.label.getD ""),
         jsToLower ((recLookup t.attributes "name").getD "")]) =
      c2.triggerElement.map (fun t =>
        [jsToLower t.tag, jsToLower (t.label.getD ""),
         jsToLower ((recLookup t.attributes "name").getD "")]))
    (hinp : c1.inputElements.map (fun el =>
        [jsToLower (((el.name.or el.id).or (el.stateBinding.map (·.variableName))).getD ""),
         jsToLower ((el.label.or (el.accessibilityHints.bind (·.ariaLabel))).getD ""),
         jsToLower (el.inputType.getD el.tag)]) =
      c2.inputElements.map (fun el =>
        [jsToLower (((el.name.or el.id).or (el.stateBinding.map (·.variableName))).getD ""),
         jsToLower ((el.label.or (el.accessibilityHints.bind (·.ariaLabel))).getD ""),
         jsToLower (el.inputType.getD el.tag)])) :
    generateToolId c1 = generateToolId c2 := by
  unfold generateToolId
  have hparts : (toolIdParts c1).map jsToLower = (toolIdParts c2).map jsToLower := by
    unfold toolIdParts
    simp only [List.map_append]
    have hA : ([c1.componentName, candidateTypeStr c1.type].map jsToLower) =
        ([c2.componentName, candidateTypeStr c2.type].map jsToLower) := by
      simp [hname, htype]
    have hB : ((match c1.triggerElement with
        | some t => [t.tag, t.label.getD "", (recLookup t.attributes "name").getD ""]
        | none => []).map jsToLower) =
        ((match c2.triggerElement with
        | some t => [t.tag, t.label.getD "", (recLookup t.attributes "name").getD ""]
        | none => []).map jsToLower) := by
      cases hc1 : c1.triggerElement with
      | none =>
        cases hc2 : c2.triggerElement with
        | none => rfl
        | some t2 => rw [hc1, hc2] at htrig; cases htrig
      | some t1 =>
        cases hc2 : c2.triggerElement with
        | none => rw [hc1, hc2] at htrig; cases htrig
        | some t2 =>
          rw [hc1, hc2] at htrig
          exact Option.some.inj htrig
    have hC : ((c1.inputElements.map (fun el =>
        [((el.name.or el.id).or (el.stateBinding.map (·.variableName))).getD "",
         (el.label.or (el.accessibilityHints.bind (·.ariaLabel))).getD "",
         el.inputType.getD el.tag])).flatten.map jsToLower) =
        ((c2.inputElements.map (fun el =>
        [((el.name.or el.id).or (el.stateBinding.map (·.variableName))).getD "",
         (el.label.or (el.accessibilityHints.bind (·.ariaLabel))).getD "",
         el.inputType.getD el.tag])).flatten.map jsToLower) := by
      rw [List.map_flatten, List.map_flatten, List.map_map, List.map_map]
      have : (List.map jsToLower ∘ fun el : UIElement =>
          [((el.name.or el.id).or (el.stateBinding.map (·.variableName))).getD "",
           (el.label.or (el.accessibilityHints.bind (·.ariaLabel))).getD "",
           el.inputType.getD el.tag]) = (fun el : UIElement =>
          [jsToLower (((el.name.or el.id).or (el.stateBinding.map (·.variableName))).getD ""),
           jsToLower ((el.label.or (el.accessibilityHints.bind (·.ariaLabel))).getD ""),
           jsToLower (el.inputType.getD el.tag)]) := by
        funext el
        rfl
      rw [this, hinp]
    rw [hA, hB, hC]
  rw [jsToLower_jsJoin_bar, jsToLower_jsJoin_bar, hparts]

/-- Witness for C2: two candidates differing in attributes, selector data,
validation markers and handler, but agreeing on the semantic fields, receive
the same id. -/
theorem generateToolId_semantic_witness :
    generateToolId
        { type := CandidateType.form, componentName := "MyForm",
          triggerElement := some
            ({ tag := "button", label := some "Send",
               attributes := [("class", "btn-primary")] } : UIElement),
          inputElements :=
            [{ tag := "input", name := some "email",
               inputType := some "email", attributes := [("class", "wide")] }] } =
      generateToolId
        { type := CandidateType.form, componentName := "MyForm",
          triggerElement := some
            ({ tag := "button", label := some "Send",
               attributes := [("class", "btn-secondary"), ("data-x", "1")] } : UIElement),
          inputElements :=
            [{ tag := "input", name := some "email",
               inputType := some "email", validation := some ["required"],
               selectorFallback := some [⟨StrategyKind.css, "input", 1/2⟩] }],
          handler := some { name := "submitIt", event := "onSubmit" } } :=
  generateToolId_semantic _ _ rfl rfl (by decide) (by decide)

/-! ## Interactive-surface hash (`generator/hash.ts`) -/

/-- JSON string escaping as performed by `JSON.stringify`. -/
def jsonEscapeChar (c : Char) : List Char :=
  if c == '"' then ['\\', '"']
  else if c == '\\' then ['\\', '\\']
  else if c == '\n' then ['\\', 'n']
  else if c == '\r' then ['\\', 'r']
  else if c == '\t' then ['\\', 't']
  else if c == '\x08' then ['\\', 'b']
  else if c == '\x0c' then ['\\', 'f']
  else if c.toNat < 32 then '\\' :: 'u' :: '0' :: '0' :: byteToHex c.toNat
  else [c]

/-- A JSON string literal. -/
def jsonStr (s : String) : String :=
  "\"" ++ (⟨(s.data.map jsonEscapeChar).flatten⟩ : String) ++ "\""

/-- A compact JSON object from already-rendered `"key":value` fields. -/
def jsonObj (fields : List String) : String := "\x7b" ++ jsJoin "," fields ++ "\x7d"

/-- A compact JSON array from already-rendered items. -/
def jsonArr (items : List String) : String := "[" ++ jsJoin "," items ++ "]"

/-- JSON boolean. -/
def jsonBool (b : Bool) : String := if b then "true" else "false"

/-- An optional string field: `JSON.stringify` omits keys whose value is
`undefined`. -/
def jsonOptField (k : String) (v : Option String) : List String :=
  match v with
  | some s => [jsonStr k ++ ":" ++ jsonStr s]
  | none => []

/-- Signature fragment for one input element: `{t, n?, i?, l?, s}`. -/
def surfaceElemJson (el : UIElement) : String :=
  jsonObj ([jsonStr "t" ++ ":" ++ jsonStr el.tag] ++
    jsonOptField "n" el.name ++ jsonOptField "i" el.inputType ++
    jsonOptField "l" el.label ++
    [jsonStr "s" ++ ":" ++ jsonBool el.stateBinding.isSome])

/-- Signature fragment for the trigger element: `{t, n?, l?}` or `null`. -/
def surfaceTriggerJson : Option UIElement → String
  | some t =>
    jsonObj ([jsonStr "t" ++ ":" ++ jsonStr t.tag] ++
      jsonOptField "n" t.name ++ jsonOptField "l" t.label)
  | none => "null"

/-- Signature fragment for the handler: `{n, ev}` or `null`. -/
def surfaceHandlerJson : Option EventHandler → String
  | some h =>
    jsonObj [jsonStr "n" ++ ":" ++ jsonStr h.name, jsonStr "ev" ++ ":" ++ jsonStr h.event]
  | none => "null"

/-- JSON rendering of one schema property. -/
def propJson (p : ToolInputProperty) : String :=
  jsonObj ([jsonStr "type" ++ ":" ++ jsonStr p.type,
    jsonStr "description" ++ ":" ++ jsonStr p.description] ++
    (match p.enum with
     | some es => [jsonStr "enum" ++ ":" ++ jsonArr (es.map jsonStr)]
     | none => []))

/-- JSON rendering of the input schema. -/
def schemaJson (s : ToolInputSchema) : String :=
  jsonObj [jsonStr "type" ++ ":" ++ jsonStr s.type,
    jsonStr "properties" ++ ":" ++
      jsonObj (s.properties.map (fun kv => jsonStr kv.1 ++ ":" ++ propJson kv.2)),
    jsonStr "required" ++ ":" ++ jsonArr (s.required.map jsonStr)]

/-- `JSON.stringify` of the interactive-surface signature object built by
`hashInteractiveSurface`: component name, per-input tag/name/subtype/label/
state-binding presence, trigger tag/name/label, handler name/event, and the
input schema — nothing else. -/
def surfaceSignatureJson (tool : ToolProposal) : String :=
  jsonObj [jsonStr "c" ++ ":" ++ jsonStr tool.sourceMapping.componentName,
    jsonStr "e" ++ ":" ++ jsonArr (tool.sourceMapping.inputElements.map surfaceElemJson),
    jsonStr "t" ++ ":" ++ surfaceTriggerJson tool.sourceMapping.triggerElement,
    jsonStr "h" ++ ":" ++ surfaceHandlerJson tool.sourceMapping.handler,
    jsonStr "schema" ++ ":" ++ schemaJson tool.inputSchema]

/-- `hashInteractiveSurface` from `generator/hash.ts`. -/
def hashInteractiveSurface (tool : ToolProposal) : String :=
  sha256Hex (surfaceSignatureJson tool)

/-! ## Incremental cache (`generator/cache.ts`)

The persisted cache file plus `JSON.parse` are modelled by what they yield:
the file is absent, unreadable (read throws), malformed (parse throws), or
parses to a JavaScript value.  Parsed objects carry entries of the shape the
cache code reads (`{handlerBody, timestamp}`); the remaining JavaScript value
kinds model well-formed JSON whose top level is not an object. -/

/-- One persisted cache entry. -/
structure CacheEntry where
  handlerBody : String
  timestamp : ℕ
deriving DecidableEq, Repr

/-- A JavaScript value as produced by a successful `JSON.parse` of the cache
file. -/
inductive JsValue
  | null
  | boolV (b : Bool)
  | numV (q : ℚ)
  | strV (s : String)
  | objV (entries : List (String × CacheEntry))
deriving DecidableEq, Repr

/-- The state of the persisted cache storage. -/
inductive Storage
  | absent
  | unreadable
  | malformed
  | jsValue (v : JsValue)
deriving DecidableEq, Repr

/-- The module state of `generator/cache.ts`: the lazily loaded in-memory
cache plus the backing storage. -/
structure CacheState where
  inMemoryCache : Option JsValue := none
  storage : Storage
deriving DecidableEq, Repr

/-- A JavaScript runtime error surfaced to the caller. -/
inductive JsError
  | typeError
deriving DecidableEq, Repr

/-- JavaScript truthiness of a value. -/
def jsTruthy : JsValue → Bool
  | .null => false
  | .boolV b => b
  | .numV q => !(q == 0)
  | .strV s => !s.isEmpty
  | .objV _ => true

/-- The storage-reading part of `loadCache`: a missing file, an unreadable
file, or a parse failure all yield the empty cache; a successful parse is
stored as is. -/
def loadFromStorage (st : CacheState) : JsValue × CacheState :=
  match st.storage with
  | .absent => (JsValue.objV [], { st with inMemoryCache := some (JsValue.objV []) })
  | .unreadable => (JsValue.objV [], { st with inMemoryCache := some (JsValue.objV []) })
  | .malformed => (JsValue.objV [], { st with inMemoryCache := some (JsValue.objV []) })
  | .jsValue v => (v, { st with inMemoryCache := some v })

/-- `loadCache` from `generator/cache.ts`: return the in-memory cache when it
is truthy (`if (inMemoryCache) return inMemoryCache`), else (re)load. -/
def loadCache (st : CacheState) : JsValue × CacheState :=
  match st.inMemoryCache with
  | some v => if jsTruthy v then (v, st) else loadFromStorage st
  | none => loadFromStorage st

/-- JavaScript property read `v[k]`: throws a TypeError on `null`, yields the
binding on objects, `undefined` (here `none`) on other primitives. -/
def propGet (v : JsValue) (k : String) : Except JsError (Option CacheEntry) :=
  match v with
  | .null => .error .typeError
  | .objV m => .ok ((m.find? (fun kv => kv.1 == k)).map (·.2))
  | _ => .ok none

/-- `getCachedHandler` from `generator/cache.ts`.  The value is the handler
body of the entry stored under the tool's interactive-surface hash, `null`
(`none`) when there is none. -/
def getCachedHandler (st : CacheState) (tool : ToolProposal) :
    Except JsError (Option String) × CacheState :=
  match propGet (loadCache st).1 (hashInteractiveSurface tool) with
  | .error e => (.error e, (loadCache st).2)
  | .ok (some entry) => (.ok (some entry.handlerBody), (loadCache st).2)
  | .ok none => (.ok none, (loadCache st).2)

/-- JavaScript object-key assignment for cache entries (`cache[hash] =
entry`): overwrite in place or append. -/
def recordSetEntry (m : List (String × CacheEntry)) (k : String) (v : CacheEntry) :
    List (String × CacheEntry) :=
  if m.any (fun kv => kv.1 == k) then m.map (fun kv => if kv.1 == k then (k, v) else kv)
  else m ++ [(k, v)]

/-- `setCachedHandler` from `generator/cache.ts`: store the handler body
under the tool's surface hash in memory and write the cache through to
storage (modelled as storing the written value).  Property assignment on a
non-object (strict-mode ES module code) throws. -/
def setCachedHandler (st : CacheState) (tool : ToolProposal) (handlerBody : String)
    (now : ℕ) : Except JsError CacheState :=
  match (loadCache st).1 with
  | JsValue.objV m =>
    .ok { inMemoryCache := some (JsValue.objV
            (recordSetEntry m (hashInteractiveSurface tool) ⟨handlerBody, now⟩)),
          storage := Storage.jsValue (JsValue.objV
            (recordSetEntry m (hashInteractiveSurface tool) ⟨handlerBody, now⟩)) }
  | _ => .error JsError.typeError


/-! ## Claim theorems: incremental cache -/

theorem propGet_obj (m : List (String × CacheEntry)) (k : String) :
    propGet (JsValue.objV m) k = .ok ((m.find? (fun kv => kv.1 == k)).map (·.2)) := rfl

/-- C9 (code behaviour at the failing input).  An absent, unreadable, or
unparsable cache file degrades to the empty cache and `getCachedHandler`
returns `null`; but a cache file whose content is the JSON literal `null`
parses successfully, is not caught, and the subsequent property read throws a
TypeError that reaches the caller — contradicting the claim that
`getCachedHandler` never raises for any state of the persisted storage. -/
theorem getCachedHandler_corruption (tool : ToolProposal) :
    ((getCachedHandler { inMemoryCache := none, storage := Storage.absent } tool).1 =
      Except.ok none)
    ∧ ((getCachedHandler { inMemoryCache := none, storage := Storage.unreadable } tool).1 =
      Except.ok none)
    ∧ ((getCachedHandler { inMemoryCache := none, storage := Storage.malformed } tool).1 =
      Except.ok none)
    ∧ ((getCachedHandler
          { inMemoryCache := none, storage := Storage.jsValue JsValue.null } tool).1 =
      Except.error JsError.typeError) :=
  ⟨rfl, rfl, rfl, rfl⟩

theorem find?_overwrite (m : List (String × CacheEntry)) (k : String) (v : CacheEntry)
    (ha : m.any (fun kv => kv.1 == k) = true) :
    (m.map (fun kv => if kv.1 == k then (k, v) else kv)).find? (fun kv => kv.1 == k) =
      some (k, v) := by
  induction m with
  | nil => simp at ha
  | cons kv rest ih =>
    simp only [List.map_cons]
    by_cases hk : kv.1 == k
    · rw [if_pos hk]
      exact List.find?_cons_of_pos _ (by simp)
    · rw [if_neg hk]
      have hrest : rest.any (fun kv => kv.1 == k) = true := by simpa [hk] using ha
      refine Eq.trans ?_ (ih hrest)
      exact List.find?_cons_of_neg _ hk

theorem recordSetEntry_find (m : List (String × CacheEntry)) (k : String) (v : CacheEntry) :
    (recordSetEntry m k v).find? (fun kv => kv.1 == k) = some (k, v) := by
  unfold recordSetEntry
  by_cases ha : m.any (fun kv => kv.1 == k)
  · rw [if_pos ha]
    exact find?_overwrite m k v ha
  · rw [if_neg ha]
    rw [List.find?_append]
    have hnone : m.find? (fun kv => kv.1 == k) = none := by
      rw [List.find?_eq_none]
      intro x hx hcon
      exact ha (List.any_eq_true.mpr ⟨x, hx, hcon⟩)
    rw [hnone]
    simp [List.find?]

theorem surfaceSignatureJson_congr (t t' : ToolProposal)
    (hc : t.sourceMapping.componentName = t'.sourceMapping.componentName)
    (he : t.sourceMapping.inputElements.map
        (fun el => (el.tag, el.name, el.inputType, el.label, el.stateBinding.isSome)) =
      t'.sourceMapping.inputElements.map
        (fun el => (el.tag, el.name, el.inputType, el.label, el.stateBinding.isSome)))
    (ht : t.sourceMapping.triggerElement.map (fun tr => (tr.tag, tr.name, tr.label)) =
      t'.sourceMapping.triggerElement.map (fun tr => (tr.tag, tr.name, tr.label)))
    (hh : t.sourceMapping.handler.map (fun h => (h.name, h.event)) =
      t'.sourceMapping.handler.map (fun h => (h.name, h.event)))
    (hs : t.inputSchema = t'.inputSchema) :
    surfaceSignatureJson t = surfaceSignatureJson t' := by
  have h2 : t.sourceMapping.inputElements.map surfaceElemJson =
      t'.sourceMapping.inputElements.map surfaceElemJson := by
    have hcomp : surfaceElemJson =
        (fun p : String × Option String × Option String × Option String × Bool =>
          jsonObj ([jsonStr "t" ++ ":" ++ jsonStr p.1] ++
            jsonOptField "n" p.2.1 ++ jsonOptField "i" p.2.2.1 ++
            jsonOptField "l" p.2.2.2.1 ++
            [jsonStr "s" ++ ":" ++ jsonBool p.2.2.2.2])) ∘
        (fun el : UIElement =>
          (el.tag, el.name, el.inputType, el.label, el.stateBinding.isSome)) :=
      funext fun el => rfl
    rw [hcomp, ← List.map_map, ← List.map_map, he]
  have h3 : surfaceTriggerJson t.sourceMapping.triggerElement =
      surfaceTriggerJson t'.sourceMapping.triggerElement := by
    cases h1 : t.sourceMapping.triggerElement with
    | none =>
      cases h1' : t'.sourceMapping.triggerElement with
      | none => rfl
      | some b => rw [h1, h1'] at ht; cases ht
    | some a =>
      cases h1' : t'.sourceMapping.triggerElement with
      | none => rw [h1, h1'] at ht; cases ht
      | some b =>
        rw [h1, h1'] at ht
        have htup := Option.some.inj ht
        have g1 : a.tag = b.tag := congrArg Prod.fst htup
        have g2 : a.name = b.name := congrArg (fun p => p.2.1) htup
        have g3 : a.label = b.label := congrArg (fun p => p.2.2) htup
        show jsonObj ([jsonStr "t" ++ ":" ++ jsonStr a.tag] ++
            jsonOptField "n" a.name ++ jsonOptField "l" a.label) =
          jsonObj ([jsonStr "t" ++ ":" ++ jsonStr b.tag] ++
            jsonOptField "n" b.name ++ jsonOptField "l" b.label)
        rw [g1, g2, g3]
  have h4 : surfaceHandlerJson t.sourceMapping.handler =
      surfaceHandlerJson t'.sourceMapping.handler := by
    cases h1 : t.sourceMapping.handler with
    | none =>
      cases h1' : t'.sourceMapping.handler with
      | none => rfl
      | some b => rw [h1, h1'] at hh; cases hh
    | some a =>
      cases h1' : t'.sourceMapping.handler with
      | none => rw [h1, h1'] at hh; cases hh
      | some b =>
        rw [h1, h1'] at hh
        have htup := Option.some.inj hh
        have g1 : a.name = b.name := congrArg Prod.fst htup
        have g2 : a.event = b.event := congrArg (fun p => p.2) htup
        show jsonObj [jsonStr "n" ++ ":" ++ jsonStr a.name,
            jsonStr "ev" ++ ":" ++ jsonStr a.event] =
          jsonObj [jsonStr "n" ++ ":" ++ jsonStr b.name,
            jsonStr "ev" ++ ":" ++ jsonStr b.event]
        rw [g1, g2]
  unfold surfaceSignatureJson
  rw [hc, h2, h3, h4, hs]

/-- C10.  Cache round-trip modulo interactive surface: after a successful
`setCachedHandler(t, b)`, `getCachedHandler(t')` returns exactly `b` for
every tool `t'` whose interactive surface equals `t`'s — same component
name, per-input tag/name/subtype/label/state-binding presence in order,
trigger tag/name/label, handler name/event, and input schema — regardless of
differences in risk, index, description, selection state, or element
attributes. -/
theorem cache_roundTrip (st st' : CacheState) (t t' : ToolProposal) (b : String) (now : ℕ)
    (hset : setCachedHandler st t b now = Except.ok st')
    (hc : t.sourceMapping.componentName = t'.sourceMapping.componentName)
    (he : t.sourceMapping.inputElements.map
        (fun el => (el.tag, el.name, el.inputType, el.label, el.stateBinding.isSome)) =
      t'.sourceMapping.inputElements.map
        (fun el => (el.tag, el.name, el.inputType, el.label, el.stateBinding.isSome)))
    (ht : t.sourceMapping.triggerElement.map (fun tr => (tr.tag, tr.name, tr.label)) =
      t'.sourceMapping.triggerElement.map (fun tr => (tr.tag, tr.name, tr.label)))
    (hh : t.sourceMapping.handler.map (fun h => (h.name, h.event)) =
      t'.sourceMapping.handler.map (fun h => (h.name, h.event)))
    (hs : t.inputSchema = t'.inputSchema) :
    (getCachedHandler st' t').1 = Except.ok (some b) := by
  have hhash : hashInteractiveSurface t' = hashInteractiveSurface t := by
    unfold hashInteractiveSurface
    rw [surfaceSignatureJson_congr t t' hc he ht hh hs]
  unfold setCachedHandler at hset
  cases hl : (loadCache st).1 with
  | objV m =>
    rw [hl] at hset
    injection hset with hset
    subst hset
    unfold getCachedHandler
    have hload : loadCache
        { inMemoryCache := some (JsValue.objV
            (recordSetEntry m (hashInteractiveSurface t) ⟨b, now⟩)),
          storage := Storage.jsValue (JsValue.objV
            (recordSetEntry m (hashInteractiveSurface t) ⟨b, now⟩)) } =
        (JsValue.objV (recordSetEntry m (hashInteractiveSurface t) ⟨b, now⟩),
         { inMemoryCache := some (JsValue.objV
             (recordSetEntry m (hashInteractiveSurface t) ⟨b, now⟩)),
           storage := Storage.jsValue (JsValue.objV
             (recordSetEntry m (hashInteractiveSurface t) ⟨b, now⟩)) }) := rfl
    rw [hload, propGet_obj, hhash, recordSetEntry_find]
    rfl
  | null => rw [hl] at hset; cases hset
  | boolV v => rw [hl] at hset; cases hset
  | numV q => rw [hl] at hset; cases hset
  | strV s => rw [hl] at hset; cases hset

/-- Witness for C10: a concrete set-then-get against an initially empty
cache, where the reading tool differs from the writing tool in index, id,
name, description, risk, stability and selection state. -/
theorem cache_roundTrip_witness :
    (getCachedHandler
        { inMemoryCache := some (JsValue.objV (recordSetEntry []
            (hashInteractiveSurface
              { index := 1, id := "aaaaaaaaaaaa", name := "save_my_form", description := "d",
                risk := ToolRisk.caution, isStable := true, selected := true,
                inputSchema := {}, sourceMapping := { componentName := "MyForm" } })
            ⟨"BODY", 5⟩)),
          storage := Storage.jsValue (JsValue.objV (recordSetEntry []
            (hashInteractiveSurface
              { index := 1, id := "aaaaaaaaaaaa", name := "save_my_form", description := "d",
                risk := ToolRisk.caution, isStable := true, selected := true,
                inputSchema := {}, sourceMapping := { componentName := "MyForm" } })
            ⟨"BODY", 5⟩)) }
        { index := 7, id := "bbbbbbbbbbbb", name := "other", description := "e",
          risk := ToolRisk.destructive, isStable := false, selected := false,
          inputSchema := {}, sourceMapping := { componentName := "MyForm" } }).1 =
      Except.ok (some "BODY") :=
  cache_roundTrip
    { inMemoryCache := some (JsValue.objV []), storage := Storage.absent }
    _
    { index := 1, id := "aaaaaaaaaaaa", name := "save_my_form", description := "d",
      risk := ToolRisk.caution, isStable := true, selected := true,
      inputSchema := {}, sourceMapping := { componentName := "MyForm" } }
    { index := 7, id := "bbbbbbbbbbbb", name := "other", description := "e",
      risk := ToolRisk.destructive, isStable := false, selected := false,
      inputSchema := {}, sourceMapping := { componentName := "MyForm" } }
    "BODY" 5 rfl rfl rfl rfl rfl rfl

end WebMCP
